import Mathlib

/-
  Formal model of the rtsp-streaming-server core (TypeScript sources under
  src/).  Each component is embedded shallowly: pure helpers become Lean
  functions, stateful methods become explicit state-passing functions, and
  external collaborators (hooks, sockets, the basic-auth parser) become
  functional parameters.  The Mounts registry / port pool class and the
  RtpUdp listener class are not part of the given sources; where they are
  needed they are modelled from the specification and marked as such.
-/

namespace RtspServer

/-! ## src/lib/utils.ts : getMountInfo

The function applies two JavaScript regular expressions:
  pathMatch   = (?:rtsp:\/\/[^\/]+)?(\/.+)        (leftmost search)
  mountRegex  = (\/\S+)(?:\/streamid=)(\d+)        (leftmost search)
and parseInt on the digit capture.  The embedding below implements the
exact backtracking semantics of those two patterns over lists of
characters. -/

/-- JavaScript whitespace, the complement of the character class \S. -/
def isJsWs (c : Char) : Bool :=
  c == ' ' || c == '\t' || c == '\n' || c == '\r' || c == '\x0B' || c == '\x0C' ||
  c == '\xA0' || c == '\uFEFF' || c == '\u1680' ||
  ('\u2000' ≤ c && c ≤ '\u200A') ||
  c == '\u2028' || c == '\u2029' || c == '\u202F' || c == '\u205F' || c == '\u3000'

/-- JavaScript line terminators, the characters the regex dot does not match. -/
def isLineTerm (c : Char) : Bool :=
  c == '\n' || c == '\r' || c == '\u2028' || c == '\u2029'

/-- Test that the second list starts with the first list. -/
def startsWithL : List Char → List Char → Bool
  | [], _ => true
  | _ :: _, [] => false
  | p :: ps, c :: cs => p == c && startsWithL ps cs

/-- Characters of the literal regex fragment rtsp:\/\/ in pathMatch. -/
def protoChars : List Char := ['r', 't', 's', 'p', ':', '/', '/']

/-- Semantics of the regex fragment \/.+ at a fixed position: a slash
followed by one or more non-line-terminator characters, matched greedily. -/
def slashDotPlus : List Char → Option (List Char)
  | a :: c :: rest =>
    if a = '/' then
      if isLineTerm c then none
      else some ('/' :: (c :: rest).takeWhile (fun x => !isLineTerm x))
    else none
  | _ => none

/-- Semantics of the prefixed alternative rtsp:\/\/[^\/]+(\/.+) at a fixed
position.  The greedy class [^\/]+ can only stop at the first slash after
the protocol marker, so the capture starts at that slash. -/
def tryProto (s : List Char) : Option (List Char) :=
  if startsWithL protoChars s then
    match s.drop 7 with
    | [] => none
    | c :: rest =>
      if c == '/' then none
      else slashDotPlus ((c :: rest).dropWhile (fun x => x != '/'))
  else none

/-- Attempt of the whole pathMatch pattern at one fixed position; the
optional group is greedy, so the prefixed alternative is tried first. -/
def pathAt (s : List Char) : Option (List Char) :=
  match tryProto s with
  | some r => some r
  | none => slashDotPlus s

/-- Leftmost search for pathMatch: try every start position left to right. -/
def pathSearch : List Char → Option (List Char)
  | [] => none
  | c :: rest =>
    match pathAt (c :: rest) with
    | some r => some r
    | none => pathSearch rest

/-- Characters of the literal regex fragment \/streamid= in mountRegex. -/
def streamLit : List Char := ['/', 's', 't', 'r', 'e', 'a', 'm', 'i', 'd', '=']

/-- Test whether a position begins with /streamid= followed by a digit,
which is what must come right after the \S+ capture of mountRegex. -/
def streamTailB (s : List Char) : Bool :=
  startsWithL streamLit s &&
    (match s.drop 10 with
     | d :: _ => d.isDigit
     | [] => false)

/-- Validity of one candidate length for the greedy \S+ capture: the
captured run is whitespace-free and is followed by /streamid= and a digit. -/
def capOk (rest : List Char) (l : Nat) : Bool :=
  ((rest.take l).all fun c => !isJsWs c) && streamTailB (rest.drop l)

/-- Greedy backtracking of \S+ : the largest valid capture length, found by
descending from the longest candidate. -/
def lastHitAux (rest : List Char) : Nat → Option Nat
  | 0 => none
  | n + 1 => if capOk rest (n + 1) then some (n + 1) else lastHitAux rest n

/-- Attempt of the whole mountRegex pattern at one fixed position: the
position must hold a slash, and some nonempty whitespace-free run after it
must be followed by /streamid= and digits.  Returns the path capture and
the greedy digit capture. -/
def mountMatchAt : List Char → Option (List Char × List Char)
  | a :: rest =>
    if a = '/' then
      match lastHitAux rest rest.length with
      | some l => some ('/' :: rest.take l, (rest.drop (l + 10)).takeWhile Char.isDigit)
      | none => none
    else none
  | [] => none

/-- Leftmost search for mountRegex. -/
def mountSearch : List Char → Option (List Char × List Char)
  | [] => none
  | c :: rest =>
    match mountMatchAt (c :: rest) with
    | some r => some r
    | none => mountSearch rest

/-- Decimal value of a digit capture, the effect of parseInt(ds, 10) on a
string of digits. -/
def natOfDigits (ds : List Char) : Nat :=
  ds.foldl (fun a c => a * 10 + (c.toNat - '0'.toNat)) 0

/-- Result record of getMountInfo. -/
structure MountInfoL where
  path : List Char
  streamId : Nat
  deriving DecidableEq, Repr

/-- Embedding of getMountInfo from src/lib/utils.ts: strip the protocol
and host through pathMatch (falling back to the whole input when the
pattern finds no match), then peel a stream id through mountRegex. -/
def getMountInfoL (uri : List Char) : MountInfoL :=
  let path0 := (pathSearch uri).getD uri
  match mountSearch path0 with
  | some (p, ds) => ⟨p, natOfDigits ds⟩
  | none => ⟨path0, 0⟩

/-- String-level wrapper of getMountInfo. -/
def getMountInfo (uri : String) : MountInfoL := getMountInfoL uri.data

/-! ### Lemmas about the getMountInfo embedding -/

theorem startsWithL_self_append (p s : List Char) : startsWithL p (p ++ s) = true := by
  induction p with
  | nil => rfl
  | cons c cs ih => simp [startsWithL, ih]

theorem dropWhile_append_all {p : Char → Bool} {h l : List Char}
    (hall : ∀ c ∈ h, p c = true) : (h ++ l).dropWhile p = l.dropWhile p := by
  induction h with
  | nil => rfl
  | cons c cs ih =>
    have hc : p c = true := hall c (by simp)
    rw [List.cons_append, List.dropWhile_cons, hc]
    simp only [if_true]
    exact ih fun d hd => hall d (by simp [hd])

theorem takeWhile_all {p : Char → Bool} {l : List Char}
    (hall : ∀ c ∈ l, p c = true) : l.takeWhile p = l := by
  induction l with
  | nil => rfl
  | cons c cs ih =>
    rw [List.takeWhile_cons, hall c (by simp)]
    simp only [if_true]
    rw [ih fun d hd => hall d (by simp [hd])]

theorem isLineTerm_false_of_not_ws {c : Char} (h : isJsWs c = false) : isLineTerm c = false := by
  cases hl : isLineTerm c with
  | false => rfl
  | true =>
    exfalso
    unfold isLineTerm at hl
    simp only [Bool.or_eq_true, beq_iff_eq] at hl
    rcases hl with ((rfl | rfl) | rfl) | rfl <;> simp [isJsWs] at h

theorem isLineTerm_false_of_digit {c : Char} (h : c.isDigit = true) : isLineTerm c = false := by
  cases hl : isLineTerm c with
  | false => rfl
  | true =>
    exfalso
    unfold isLineTerm at hl
    simp only [Bool.or_eq_true, beq_iff_eq] at hl
    rcases hl with ((rfl | rfl) | rfl) | rfl <;> exact absurd h (by decide)

theorem ne_slash_of_digit {c : Char} (h : c.isDigit = true) : c ≠ '/' := by
  intro he
  subst he
  exact absurd h (by decide)

theorem streamTailB_cons_ne {d : Char} {l : List Char} (hd : d ≠ '/') :
    streamTailB (d :: l) = false := by
  have hbd : ('/' == d) = false := beq_eq_false_iff_ne.mpr fun e => hd e.symm
  simp [streamTailB, streamLit, startsWithL, hbd]

theorem streamTailB_nil : streamTailB [] = false := rfl

theorem slashDotPlus_full {r : List Char} (hne : r ≠ [])
    (hnl : ∀ c ∈ r, isLineTerm c = false) : slashDotPlus ('/' :: r) = some ('/' :: r) := by
  cases r with
  | nil => exact absurd rfl hne
  | cons c rest =>
    have hc : isLineTerm c = false := hnl c (by simp)
    have ht : (c :: rest).takeWhile (fun x => !isLineTerm x) = c :: rest :=
      takeWhile_all fun d hd => by simp [hnl d hd]
    simp [slashDotPlus, hc, ht]

theorem pathSearch_slash {r : List Char} (hne : r ≠ [])
    (hnl : ∀ c ∈ r, isLineTerm c = false) :
    pathSearch ('/' :: r) = some ('/' :: r) := by
  have hs := slashDotPlus_full hne hnl
  have hp : tryProto ('/' :: r) = none := by
    simp [tryProto, protoChars, startsWithL]
  rw [pathSearch, pathAt, hp, hs]

theorem tryProto_reduce {h r : List Char} (hh : h ≠ []) (hsl : ∀ c ∈ h, c ≠ '/')
    (hne : r ≠ []) (hnl : ∀ c ∈ r, isLineTerm c = false) :
    tryProto (protoChars ++ (h ++ '/' :: r)) = some ('/' :: r) := by
  cases h with
  | nil => exact absurd rfl hh
  | cons c h2 =>
    have h1 : startsWithL protoChars (protoChars ++ ((c :: h2) ++ '/' :: r)) = true :=
      startsWithL_self_append _ _
    have hd7 : (protoChars ++ ((c :: h2) ++ '/' :: r)).drop 7 = c :: (h2 ++ '/' :: r) := rfl
    have hcs : (c == '/') = false := beq_eq_false_iff_ne.mpr (hsl c (by simp))
    have hdw : ((c :: h2) ++ '/' :: r).dropWhile (fun x => x != '/') = '/' :: r := by
      rw [dropWhile_append_all fun d hd => by simpa [bne_iff_ne] using hsl d hd]
      rw [List.dropWhile_cons]
      simp
    unfold tryProto
    rw [h1]
    simp only [if_true]
    rw [hd7]
    simp only [hcs, Bool.false_eq_true, if_false]
    rw [show c :: (h2 ++ '/' :: r) = (c :: h2) ++ '/' :: r from rfl, hdw]
    exact slashDotPlus_full hne hnl

theorem pathSearch_proto {h r : List Char} (hh : h ≠ []) (hsl : ∀ c ∈ h, c ≠ '/')
    (hne : r ≠ []) (hnl : ∀ c ∈ r, isLineTerm c = false) :
    pathSearch (protoChars ++ (h ++ '/' :: r)) = some ('/' :: r) := by
  have hp : pathAt (protoChars ++ (h ++ '/' :: r)) = some ('/' :: r) := by
    unfold pathAt
    rw [tryProto_reduce hh hsl hne hnl]
  rw [show protoChars ++ (h ++ '/' :: r) =
        'r' :: (['t', 's', 'p', ':', '/', '/'] ++ (h ++ '/' :: r)) from rfl] at hp ⊢
  rw [pathSearch, hp]

theorem lastHitAux_none {rest : List Char} (hall : ∀ l, 1 ≤ l → capOk rest l = false) :
    ∀ n, lastHitAux rest n = none := by
  intro n
  induction n with
  | zero => rfl
  | succ m ih => simp [lastHitAux, hall (m + 1) (by omega), ih]

theorem lastHitAux_find {rest : List Char} {k : Nat} (hkv : capOk rest k = true)
    (hk : 1 ≤ k) (habove : ∀ m, k < m → capOk rest m = false) :
    ∀ n, k ≤ n → lastHitAux rest n = some k := by
  intro n
  induction n with
  | zero => intro hn; omega
  | succ m ih =>
    intro hn
    by_cases he : k = m + 1
    · subst he; simp [lastHitAux, hkv]
    · have hlt : k ≤ m := by omega
      simp [lastHitAux, habove (m + 1) (by omega), ih hlt]

theorem mountSearch_none {s : List Char}
    (hs : ∀ m, 1 ≤ m → streamTailB (s.drop m) = false) :
    mountSearch s = none := by
  induction s with
  | nil => rfl
  | cons c rest ih =>
    have hm : mountMatchAt (c :: rest) = none := by
      by_cases hc : c = '/'
      · subst hc
        have hcap : ∀ l, 1 ≤ l → capOk rest l = false := by
          intro l hl
          have hstep : streamTailB (rest.drop l) = false := by
            have := hs (l + 1) (by omega)
            simpa [List.drop_succ_cons] using this
          simp [capOk, hstep]
        simp [mountMatchAt, lastHitAux_none hcap]
      · simp [mountMatchAt, hc]
    rw [mountSearch, hm]
    exact ih fun m hm1 => by simpa [List.drop_succ_cons] using hs (m + 1) (by omega)

theorem streamTail_drop_false {ds t : List Char} (hdd : ∀ c ∈ ds, c.isDigit = true)
    (hts : ∀ n, streamTailB (t.drop n) = false) :
    ∀ j, 1 ≤ j → streamTailB ((streamLit ++ (ds ++ t)).drop j) = false := by
  intro j hj
  by_cases hj10 : j ≤ 9
  · have hjle : j ≤ streamLit.length := by simp [streamLit]; omega
    rw [List.drop_append_of_le_length hjle]
    interval_cases j <;> exact streamTailB_cons_ne (by decide)
  · have hj' : j = 10 + (j - 10) := by omega
    rw [hj']
    rw [show (10 : Nat) + (j - 10) = streamLit.length + (j - 10) from rfl, List.drop_append]
    set k := j - 10 with hk
    by_cases hkd : k < ds.length
    · rw [List.drop_append_of_le_length (by omega)]
      cases hdk : ds.drop k with
      | nil => exact absurd (by simpa using congrArg List.length hdk) (by omega)
      | cons e l2 =>
        have he : e ∈ ds := List.drop_subset k ds (by rw [hdk]; simp)
        rw [List.cons_append]
        exact streamTailB_cons_ne (ne_slash_of_digit (hdd e he))
    · have hk' : k = ds.length + (k - ds.length) := by omega
      rw [hk', List.drop_append]
      exact hts _

theorem takeWhile_digit_append {ds t : List Char} (hdd : ∀ c ∈ ds, c.isDigit = true)
    (htd : t = [] ∨ ∃ d t2, t = d :: t2 ∧ d.isDigit = false) :
    (ds ++ t).takeWhile Char.isDigit = ds := by
  induction ds with
  | nil =>
    rcases htd with rfl | ⟨d, t2, rfl, hd⟩
    · rfl
    · simp [List.takeWhile_cons, hd]
  | cons e es ih =>
    rw [List.cons_append, List.takeWhile_cons, hdd e (by simp)]
    simp only [if_true]
    rw [ih fun c hc => hdd c (by simp [hc])]

theorem mountSearch_split {a ds t : List Char} (ha : a ≠ [])
    (haw : ∀ c ∈ a, isJsWs c = false) (hds : ds ≠ [])
    (hdd : ∀ c ∈ ds, c.isDigit = true)
    (htd : t = [] ∨ ∃ d t2, t = d :: t2 ∧ d.isDigit = false)
    (hts : ∀ n, streamTailB (t.drop n) = false) :
    mountSearch ('/' :: (a ++ (streamLit ++ (ds ++ t)))) = some ('/' :: a, ds) := by
  have hkv : capOk (a ++ (streamLit ++ (ds ++ t))) a.length = true := by
    unfold capOk
    rw [List.take_left, List.drop_left]
    have h1 : a.all (fun c => !isJsWs c) = true :=
      List.all_eq_true.mpr fun c hc => by simp [haw c hc]
    have h2 : streamTailB (streamLit ++ (ds ++ t)) = true := by
      unfold streamTailB
      rw [startsWithL_self_append]
      cases ds with
      | nil => exact absurd rfl hds
      | cons e es =>
        rw [show (streamLit ++ ((e :: es) ++ t)).drop 10 = e :: (es ++ t) from rfl]
        simp [hdd e (by simp)]
    rw [h1, h2]
    rfl
  have habove : ∀ m, a.length < m → capOk (a ++ (streamLit ++ (ds ++ t))) m = false := by
    intro m hm
    unfold capOk
    have hst : streamTailB ((a ++ (streamLit ++ (ds ++ t))).drop m) = false := by
      have hm' : m = a.length + (m - a.length) := by omega
      rw [hm', List.drop_append]
      exact streamTail_drop_false hdd hts _ (by omega)
    simp [hst]
  have hka : 1 ≤ a.length := by
    cases a with | nil => exact absurd rfl ha | cons _ _ => simp
  have hlen : a.length ≤ (a ++ (streamLit ++ (ds ++ t))).length := by simp
  have hfind := lastHitAux_find hkv hka habove _ hlen
  have hmm : mountMatchAt ('/' :: (a ++ (streamLit ++ (ds ++ t)))) = some ('/' :: a, ds) := by
    have hdrop : (a ++ (streamLit ++ (ds ++ t))).drop (a.length + 10) = ds ++ t := by
      rw [List.drop_append, show (10 : Nat) = streamLit.length from rfl, List.drop_left]
    simp only [mountMatchAt, eq_self_iff_true, if_true, hfind]
    rw [List.take_left, hdrop, takeWhile_digit_append hdd htd]
  rw [mountSearch, hmm]

/-- C7 counterexample input: the path /a/streamid=5x does not end in a
/streamid=N suffix (a trailing x follows the digits), so the claim predicts
streamId 0 and an unchanged path; the code instead matches /streamid= as an
inner substring, returns path /a and streamId 5, and discards the x. -/
theorem C7_counterexample :
    getMountInfoL ['/', 'a', '/', 's', 't', 'r', 'e', 'a', 'm', 'i', 'd', '=', '5', 'x'] =
      ⟨['/', 'a'], 5⟩ ∧
    getMountInfoL ['/', 'a', '/', 's', 't', 'r', 'e', 'a', 'm', 'i', 'd', '=', '5', 'x'] ≠
      ⟨['/', 'a', '/', 's', 't', 'r', 'e', 'a', 'm', 'i', 'd', '=', '5', 'x'], 0⟩ := by
  constructor <;> decide

/-- C7 amended: getMountInfo strips a leading rtsp-colon-slash-slash-host
marker to obtain the path component; when the path contains an occurrence
of /streamid= followed by a digit anywhere after a nonempty whitespace-free
run (not necessarily as a suffix), the portion before the last such
occurrence becomes the mount path, the maximal digit run after it is parsed
as the decimal streamId, and anything after those digits is discarded; when
no such occurrence is present the streamId is 0 and the path is the whole
prefix-stripped input.  Stated for inputs whose path component starts with
a slash and contains no line terminators. -/
theorem C7_amended :
    (∀ h r, h ≠ [] → (∀ c ∈ h, c ≠ '/') → r ≠ [] → (∀ c ∈ r, isLineTerm c = false) →
      getMountInfoL (protoChars ++ (h ++ '/' :: r)) = getMountInfoL ('/' :: r))
    ∧
    (∀ a ds t, a ≠ [] → (∀ c ∈ a, isJsWs c = false) → ds ≠ [] →
      (∀ c ∈ ds, c.isDigit = true) →
      (t = [] ∨ ∃ d t2, t = d :: t2 ∧ d.isDigit = false) →
      (∀ n, streamTailB (t.drop n) = false) →
      (∀ c ∈ t, isLineTerm c = false) →
      getMountInfoL ('/' :: (a ++ (streamLit ++ (ds ++ t)))) = ⟨'/' :: a, natOfDigits ds⟩)
    ∧
    (∀ r, r ≠ [] → (∀ c ∈ r, isLineTerm c = false) →
      (∀ n, streamTailB (r.drop n) = false) →
      getMountInfoL ('/' :: r) = ⟨'/' :: r, 0⟩) := by
  refine ⟨?_, ?_, ?_⟩
  · intro h r hh hsl hne hnl
    unfold getMountInfoL
    rw [pathSearch_proto hh hsl hne hnl, pathSearch_slash hne hnl]
    simp only [Option.getD_some]
  · intro a ds t ha haw hds hdd htd hts htnl
    have hrne : a ++ (streamLit ++ (ds ++ t)) ≠ [] := by
      cases a with | nil => exact absurd rfl ha | cons _ _ => simp
    have hlit : ∀ c ∈ streamLit, isLineTerm c = false := by decide
    have hrnl : ∀ c ∈ a ++ (streamLit ++ (ds ++ t)), isLineTerm c = false := by
      intro c hc
      rcases List.mem_append.mp hc with hca | hcx
      · exact isLineTerm_false_of_not_ws (haw c hca)
      · rcases List.mem_append.mp hcx with hcl | hcy
        · exact hlit c hcl
        · rcases List.mem_append.mp hcy with hcd | hct
          · exact isLineTerm_false_of_digit (hdd c hcd)
          · exact htnl c hct
    unfold getMountInfoL
    rw [pathSearch_slash hrne hrnl]
    simp only [Option.getD_some]
    rw [mountSearch_split ha haw hds hdd htd hts]
  · intro r hne hnl hts
    unfold getMountInfoL
    rw [pathSearch_slash hne hnl]
    simp only [Option.getD_some]
    rw [mountSearch_none fun m hm => by
      cases m with
      | zero => omega
      | succ k => simpa [List.drop_succ_cons] using hts k]

/-- C7 witness: the amended middle clause evaluated at the concrete input
/live/streamid=42, which parses to path /live and stream id 42. -/
theorem C7_witness :
    getMountInfoL ('/' :: (['l', 'i', 'v', 'e'] ++ (streamLit ++ (['4', '2'] ++ [])))) =
      ⟨'/' :: ['l', 'i', 'v', 'e'], natOfDigits ['4', '2']⟩ :=
  C7_amended.2.1 ['l', 'i', 'v', 'e'] ['4', '2'] [] (by decide) (by decide) (by decide)
    (by decide) (Or.inl rfl) (fun n => by rw [List.drop_nil]; exact streamTailB_nil) (by decide)

/-! ## Interleaved framing

Encoder: the 4-byte header written by queuePacket in src/lib/RtpTcp.ts.
Decoder: the while-loop of the publisher TCP data handler installed by
PublishServer.setupRequest (src/unnamed/part_000, lines 192-235).  Bytes
are modelled as natural numbers. -/

/-- Frame layout produced by queuePacket: 0x24, the channel byte, the
16-bit big-endian payload length, then the payload. -/
def encFrame (ch : Nat) (p : List Nat) : List Nat :=
  0x24 :: ch :: (p.length / 256) :: (p.length % 256) :: p

/-- Fuelled version of the deframing while-loop.  While at least 4 bytes
are buffered: a non-0x24 head byte resynchronises by discarding up to the
next 0x24 (indexOf from position 1 equals dropWhile here because the head
byte is known not to be 0x24, and a missing 0x24 clears the buffer, which
dropWhile also does); otherwise the declared length is read and either the
loop waits for more data or emits the payload and advances. -/
def deframeAux : Nat → List Nat → List (Nat × List Nat) × List Nat
  | 0, buf => ([], buf)
  | fuel + 1, a :: b :: c :: d :: rest =>
    if a ≠ 0x24 then
      deframeAux fuel ((a :: b :: c :: d :: rest).dropWhile (fun x => x ≠ 0x24))
    else
      if rest.length < c * 256 + d then ([], a :: b :: c :: d :: rest)
      else
        let out := deframeAux fuel (rest.drop (c * 256 + d))
        ((b, rest.take (c * 256 + d)) :: out.1, out.2)
  | _ + 1, short => ([], short)

/-- One data event of the handler: run the while-loop to quiescence.  The
buffer length is always enough fuel because every iteration consumes at
least one byte. -/
def deframeLoop (buf : List Nat) : List (Nat × List Nat) × List Nat :=
  deframeAux buf.length buf

/-- Length of the buffer after a resynchronisation step strictly drops. -/
theorem dropWhile_skip_len {a : Nat} {l : List Nat} (ha : a ≠ 0x24) :
    ((a :: l).dropWhile (fun x => x ≠ 0x24)).length ≤ l.length := by
  rw [List.dropWhile_cons, if_pos (by simpa using ha)]
  exact (List.dropWhile_suffix _).sublist.length_le

theorem deframeAux_fuel_ext : ∀ fuel buf, buf.length ≤ fuel →
    deframeAux (fuel + 1) buf = deframeAux fuel buf := by
  intro fuel
  induction fuel with
  | zero =>
    intro buf hlen
    have hb : buf = [] := List.length_eq_zero.mp (Nat.le_zero.mp hlen)
    subst hb
    rfl
  | succ f ih =>
    intro buf hlen
    match buf with
    | [] => rfl
    | [a] => rfl
    | [a, b] => rfl
    | [a, b, c] => rfl
    | a :: b :: c :: d :: rest =>
      have hlen4 : rest.length + 4 ≤ f + 1 := by
        simpa [List.length_cons] using hlen
      by_cases ha : a = 0x24
      · subst ha
        by_cases hlt : rest.length < c * 256 + d
        · simp [deframeAux, hlt]
        · have hrec := ih (rest.drop (c * 256 + d)) (by simp; omega)
          simp [deframeAux, hlt, hrec]
      · simp only [deframeAux, if_pos ha]
        exact ih _ (le_trans (dropWhile_skip_len ha) (by simp; omega))

theorem deframeAux_eq_loop : ∀ fuel buf, buf.length ≤ fuel →
    deframeAux fuel buf = deframeLoop buf := by
  intro fuel
  induction fuel with
  | zero =>
    intro buf hlen
    have hb : buf = [] := List.length_eq_zero.mp (Nat.le_zero.mp hlen)
    subst hb
    rfl
  | succ f ih =>
    intro buf hlen
    by_cases he : buf.length = f + 1
    · rw [deframeLoop, he]
    · have hle : buf.length ≤ f := by omega
      rw [deframeAux_fuel_ext f buf hle, ih buf hle]

theorem deframeLoop_short {buf : List Nat} (h : buf.length < 4) :
    deframeLoop buf = ([], buf) := by
  match buf, h with
  | [], _ => rfl
  | [a], _ => rfl
  | [a, b], _ => rfl
  | [a, b, c], _ => rfl
  | a :: b :: c :: d :: rest, h => exact absurd h (by simp)

theorem deframeLoop_skip {a b c d : Nat} {rest : List Nat} (ha : a ≠ 0x24) :
    deframeLoop (a :: b :: c :: d :: rest) =
      deframeLoop ((a :: b :: c :: d :: rest).dropWhile (fun x => x ≠ 0x24)) := by
  have h1 : (a :: b :: c :: d :: rest).length = (rest.length + 3) + 1 := by
    simp [List.length_cons]
  rw [deframeLoop, h1]
  simp only [deframeAux, if_pos ha]
  exact deframeAux_eq_loop _ _ (le_trans (dropWhile_skip_len ha) (by simp))

theorem deframeLoop_wait {b c d : Nat} {rest : List Nat}
    (hlt : rest.length < c * 256 + d) :
    deframeLoop (0x24 :: b :: c :: d :: rest) = ([], 0x24 :: b :: c :: d :: rest) := by
  have h1 : (0x24 :: b :: c :: d :: rest).length = (rest.length + 3) + 1 := by
    simp [List.length_cons]
  rw [deframeLoop, h1]
  simp [deframeAux, hlt]

theorem deframeLoop_emit {b c d : Nat} {rest : List Nat}
    (hge : ¬ rest.length < c * 256 + d) :
    deframeLoop (0x24 :: b :: c :: d :: rest) =
      ((b, rest.take (c * 256 + d)) :: (deframeLoop (rest.drop (c * 256 + d))).1,
        (deframeLoop (rest.drop (c * 256 + d))).2) := by
  have h1 : (0x24 :: b :: c :: d :: rest).length = (rest.length + 3) + 1 := by
    simp [List.length_cons]
  rw [deframeLoop, h1]
  have hrec := deframeAux_eq_loop (rest.length + 3) (rest.drop (c * 256 + d))
    (by simp; omega)
  simp [deframeAux, hge, hrec]

/-- Noise bytes: anything except the 0x24 frame marker. -/
def AllNoise (n : List Nat) : Prop := ∀ b ∈ n, b ≠ 0x24

/-- Streams formed by encFrame frames with runs of noise bytes before,
between and after the frames.  Channel bytes and payload lengths lie in
the ranges the Buffer writes of queuePacket accept without throwing. -/
inductive Enc : List Nat → List (Nat × List Nat) → Prop
  | nil : ∀ {n : List Nat}, AllNoise n → Enc n []
  | frame : ∀ {n : List Nat} {ch : Nat} {p rest : List Nat} {fs : List (Nat × List Nat)},
      AllNoise n → ch ≤ 255 → p.length ≤ 65535 → Enc rest fs →
      Enc (n ++ (encFrame ch p ++ rest)) ((ch, p) :: fs)

/-- Buffers on which the while-loop makes no further step: fewer than 4
bytes, or a frame header whose declared length exceeds the buffered rest. -/
def Quiescent : List Nat → Prop
  | a :: _ :: c :: d :: rest => a = 0x24 ∧ rest.length < c * 256 + d
  | _ => True

theorem deframeLoop_quiescent_aux : ∀ m (buf : List Nat), buf.length ≤ m →
    Quiescent (deframeLoop buf).2 := by
  intro m
  induction m with
  | zero =>
    intro buf h
    have hb : buf = [] := List.length_eq_zero.mp (Nat.le_zero.mp h)
    subst hb
    rw [deframeLoop_short (by simp)]
    trivial
  | succ k ih =>
    intro buf hlen
    match buf with
    | [] => rw [deframeLoop_short (by simp)]; trivial
    | [a] => rw [deframeLoop_short (by simp)]; trivial
    | [a, b] => rw [deframeLoop_short (by simp)]; trivial
    | [a, b, c] => rw [deframeLoop_short (by simp)]; trivial
    | a :: b :: c :: d :: rest =>
      have hlen4 : rest.length + 4 ≤ k + 1 := by simpa [List.length_cons] using hlen
      by_cases ha : a = 0x24
      · subst ha
        by_cases hlt : rest.length < c * 256 + d
        · rw [deframeLoop_wait hlt]
          exact ⟨rfl, hlt⟩
        · rw [deframeLoop_emit hlt]
          exact ih _ (by simp; omega)
      · rw [deframeLoop_skip ha]
        exact ih _ (le_trans (dropWhile_skip_len ha) (by simp; omega))

theorem Enc_strip_noise {u v : List Nat} {gs : List (Nat × List Nat)}
    (hu : AllNoise u) (henc : Enc (u ++ v) gs) : Enc v gs := by
  generalize hw : u ++ v = w at henc
  cases henc with
  | nil hn =>
    exact Enc.nil fun b hb => hn b (by rw [← hw]; simp [hb])
  | frame hn hch hple henc2 =>
    rename_i n ch p rest2 fs
    have hleq : u.length ≤ n.length := by
      by_contra hlt
      push_neg at hlt
      have hd := congrArg (List.drop n.length) hw
      rw [List.drop_append_of_le_length (le_of_lt hlt), List.drop_left] at hd
      cases hdu : u.drop n.length with
      | nil =>
        have := congrArg List.length hdu
        simp at this
        omega
      | cons e t =>
        rw [hdu, encFrame, List.cons_append] at hd
        have he : e = 0x24 := ((List.cons.injEq _ _ _ _).mp hd).1
        exact absurd he (hu e (List.drop_subset _ _ (by rw [hdu]; simp)))
    have hv : v = n.drop u.length ++ (encFrame ch p ++ rest2) := by
      have hd := congrArg (List.drop u.length) hw
      rwa [List.drop_left, List.drop_append_of_le_length hleq] at hd
    rw [hv]
    exact Enc.frame (fun b hb => hn b (List.drop_subset _ _ hb)) hch hple henc2

theorem append_eq_split {rest v p r2 : List Nat} (h : rest ++ v = p ++ r2)
    (hlen : p.length ≤ rest.length) :
    rest.take p.length = p ∧ rest.drop p.length ++ v = r2 := by
  constructor
  · have ht := congrArg (List.take p.length) h
    rwa [List.take_append_of_le_length hlen, List.take_left] at ht
  · have hd := congrArg (List.drop p.length) h
    rwa [List.drop_append_of_le_length hlen, List.drop_left] at hd

theorem deframe_prefix : ∀ m (u v : List Nat) (gs : List (Nat × List Nat)),
    u.length ≤ m → Enc (u ++ v) gs →
    ∃ hs, gs = (deframeLoop u).1 ++ hs ∧ Enc ((deframeLoop u).2 ++ v) hs := by
  intro m
  induction m with
  | zero =>
    intro u v gs hu henc
    have hb : u = [] := List.length_eq_zero.mp (Nat.le_zero.mp hu)
    subst hb
    rw [deframeLoop_short (by simp)]
    exact ⟨gs, by simp, henc⟩
  | succ k ih =>
    intro u v gs hlen henc
    match u with
    | [] => rw [deframeLoop_short (by simp)]; exact ⟨gs, by simp, henc⟩
    | [a] => rw [deframeLoop_short (by simp)]; exact ⟨gs, by simp, henc⟩
    | [a, b] => rw [deframeLoop_short (by simp)]; exact ⟨gs, by simp, henc⟩
    | [a, b, c] => rw [deframeLoop_short (by simp)]; exact ⟨gs, by simp, henc⟩
    | a :: b :: c :: d :: rest =>
      have hlen4 : rest.length + 4 ≤ k + 1 := by simpa [List.length_cons] using hlen
      by_cases ha : a = 0x24
      · subst ha
        have hkeep := henc
        generalize hw : (0x24 :: b :: c :: d :: rest) ++ v = w at henc
        cases henc with
        | nil hn =>
          exact absurd (hn 0x24 (by rw [← hw]; simp)) (by simp)
        | frame hn hch hple henc2 =>
          rename_i n ch p rest2 fs
          have hn0 : n = [] := by
            cases hnn : n with
            | nil => rfl
            | cons e n2 =>
              exfalso
              rw [hnn, List.cons_append] at hw
              rw [List.cons_append] at hw
              have he : e = 0x24 := ((List.cons.injEq _ _ _ _).mp hw.symm).1
              exact absurd he (hn e (by rw [hnn]; simp))
          subst hn0
          rw [List.nil_append, List.cons_append, encFrame] at hw
          obtain ⟨hb36, hw⟩ := (List.cons.injEq _ _ _ _).mp hw
          obtain ⟨hbch, hw⟩ := (List.cons.injEq _ _ _ _).mp hw
          obtain ⟨hcv, hw⟩ := (List.cons.injEq _ _ _ _).mp hw
          obtain ⟨hdv, hrv⟩ := (List.cons.injEq _ _ _ _).mp hw
          have hlenp : c * 256 + d = p.length := by
            rw [hcv, hdv]; omega
          by_cases hlt : rest.length < c * 256 + d
          · rw [deframeLoop_wait hlt]
            exact ⟨(ch, p) :: fs, by simp, hkeep⟩
          · rw [deframeLoop_emit hlt]
            have hple2 : p.length ≤ rest.length := by omega
            obtain ⟨htake, hdrop⟩ := append_eq_split hrv hple2
            obtain ⟨hs, hgs, hencr⟩ := ih (rest.drop (c * 256 + d)) v fs
              (by simp; omega) (by rw [hlenp, hdrop]; exact henc2)
            refine ⟨hs, ?_, hencr⟩
            rw [List.cons_append, ← hgs, hbch, hlenp, htake]
      · rw [deframeLoop_skip ha]
        have hnoise : AllNoise ((a :: b :: c :: d :: rest).takeWhile (fun x => x ≠ 0x24)) := by
          intro x hx
          simpa using List.mem_takeWhile_imp hx
        have henc2 : Enc (((a :: b :: c :: d :: rest).dropWhile (fun x => x ≠ 0x24)) ++ v) gs := by
          apply Enc_strip_noise hnoise
          rw [← List.append_assoc, List.takeWhile_append_dropWhile]
          exact henc
        exact ih _ v gs (le_trans (dropWhile_skip_len ha) (by simp; omega)) henc2

/-- State of the publisher data handler across successive socket data
events: append each chunk to the carried buffer, run the while-loop, and
accumulate the emitted frames in order. -/
def deframeChunks : List Nat → List (List Nat) → List (Nat × List Nat) × List Nat
  | buf, [] => ([], buf)
  | buf, chunk :: cs =>
    ((deframeLoop (buf ++ chunk)).1 ++ (deframeChunks (deframeLoop (buf ++ chunk)).2 cs).1,
      (deframeChunks (deframeLoop (buf ++ chunk)).2 cs).2)

theorem Quiescent_shape {l : List Nat} (h4 : 4 ≤ l.length) (hq : Quiescent l) :
    ∃ b c d rest, l = 0x24 :: b :: c :: d :: rest := by
  match l, h4, hq with
  | a :: b :: c :: d :: rest, _, hq =>
    obtain ⟨ha, -⟩ := hq
    exact ⟨b, c, d, rest, by rw [ha]⟩
  | [], h4, _ => exact absurd h4 (by simp)
  | [a], h4, _ => exact absurd h4 (by simp)
  | [a, b], h4, _ => exact absurd h4 (by simp)
  | [a, b, c], h4, _ => exact absurd h4 (by simp)

theorem Enc_quiescent_nil {r : List Nat} {hs : List (Nat × List Nat)}
    (hq : Quiescent r) (henc : Enc r hs) : hs = [] := by
  cases henc with
  | nil _ => rfl
  | frame hn hch hple henc2 =>
    rename_i n ch p rest2 fs
    exfalso
    have h4 : 4 ≤ (n ++ (encFrame ch p ++ rest2)).length := by
      simp [encFrame]; omega
    obtain ⟨b, c, d, rest, hshape⟩ := Quiescent_shape h4 hq
    cases hnn : n with
    | nil =>
      rw [hnn, List.nil_append, encFrame, List.cons_append] at hshape
      obtain ⟨-, hw⟩ := (List.cons.injEq _ _ _ _).mp hshape.symm
      obtain ⟨hbch, hw⟩ := (List.cons.injEq _ _ _ _).mp hw
      obtain ⟨hcv, hw⟩ := (List.cons.injEq _ _ _ _).mp hw
      obtain ⟨hdv, hrest⟩ := (List.cons.injEq _ _ _ _).mp hw
      rw [hnn, List.nil_append] at hq
      rw [encFrame, List.cons_append] at hq
      obtain ⟨-, hlt⟩ := hq
      simp [List.length_append] at hlt
      omega
    | cons e n2 =>
      rw [hnn, List.cons_append] at hshape
      have he : e = 0x24 := ((List.cons.injEq _ _ _ _).mp hshape).1
      exact absurd he (hn e (by rw [hnn]; simp))

theorem deframeChunks_spec : ∀ (cs : List (List Nat)) (buf : List Nat)
    (gs : List (Nat × List Nat)), Quiescent buf → Enc (buf ++ cs.join) gs →
    ∃ hs, gs = (deframeChunks buf cs).1 ++ hs ∧
      Enc (deframeChunks buf cs).2 hs ∧ Quiescent (deframeChunks buf cs).2 := by
  intro cs
  induction cs with
  | nil =>
    intro buf gs hq henc
    exact ⟨gs, by simp [deframeChunks], by simpa using henc,
      by simpa [deframeChunks] using hq⟩
  | cons chunk cs ih =>
    intro buf gs hq henc
    have hencA : Enc ((buf ++ chunk) ++ cs.join) gs := by
      rw [List.append_assoc]
      simpa [List.join] using henc
    obtain ⟨hs1, hgs1, henc1⟩ :=
      deframe_prefix (buf ++ chunk).length (buf ++ chunk) cs.join gs le_rfl hencA
    have hq1 : Quiescent (deframeLoop (buf ++ chunk)).2 :=
      deframeLoop_quiescent_aux _ _ le_rfl
    obtain ⟨hs2, hgs2, henc2, hq2⟩ := ih (deframeLoop (buf ++ chunk)).2 hs1 hq1 henc1
    refine ⟨hs2, ?_, ?_, ?_⟩
    · simp only [deframeChunks]
      rw [hgs1, hgs2, List.append_assoc]
    · simpa only [deframeChunks] using henc2
    · simpa only [deframeChunks] using hq2

/-- C2: framing round-trip.  For every sequence of (channel, payload)
pairs with byte channels and payloads shorter than 2 to the 16, encoding
each pair with the 4-byte header of queuePacket, separating and
surrounding the frames with arbitrary non-0x24 noise bytes, splitting the
result at arbitrary chunk boundaries, and feeding the chunks one data
event at a time to the publisher-side deframer emits exactly the original
sequence of pairs in order; the deframer resynchronises at the next 0x24
after noise and has no error output at all. -/
theorem C2_framing_roundtrip (fs : List (Nat × List Nat)) (chunks : List (List Nat))
    (henc : Enc chunks.join fs) : (deframeChunks [] chunks).1 = fs := by
  obtain ⟨hs, hgs, hencr, hq⟩ := deframeChunks_spec chunks [] fs trivial (by simpa using henc)
  rw [Enc_quiescent_nil hq hencr] at hgs
  simpa using hgs.symm

/-- C2 witness: two frames (channel 0 with payload [1, 2, 0x24], channel 1
with empty payload), noise 9 before, 7 8 between, 5 after, split into five
ragged chunks including an empty one. -/
theorem C2_witness :
    Enc ([[9, 0x24, 0], [], [0, 3, 1], [2, 0x24, 7, 8, 0x24, 1], [0, 0, 5]] :
        List (List Nat)).join [(0, [1, 2, 0x24]), (1, [])] ∧
    (deframeChunks [] [[9, 0x24, 0], [], [0, 3, 1], [2, 0x24, 7, 8, 0x24, 1], [0, 0, 5]]).1 =
      [(0, [1, 2, 0x24]), (1, [])] := by
  have hj : ([[9, 0x24, 0], [], [0, 3, 1], [2, 0x24, 7, 8, 0x24, 1], [0, 0, 5]] :
      List (List Nat)).join =
      [9] ++ (encFrame 0 [1, 2, 0x24] ++ ([7, 8] ++ (encFrame 1 [] ++ [5]))) := by decide
  have henc : Enc ([[9, 0x24, 0], [], [0, 3, 1], [2, 0x24, 7, 8, 0x24, 1], [0, 0, 5]] :
      List (List Nat)).join [(0, [1, 2, 0x24]), (1, [])] := by
    rw [hj]
    exact Enc.frame (by unfold AllNoise; decide) (by decide) (by decide)
      (Enc.frame (by unfold AllNoise; decide) (by decide) (by decide)
        (Enc.nil (by unfold AllNoise; decide)))
  exact ⟨henc, C2_framing_roundtrip _ _ henc⟩

/-! ## src/lib/RtpTcp.ts : the TCP interleaver

State of one RtpTcp object.  The socket is modelled by the list of packets
it has accepted (wire) plus an acceptance oracle consumed one entry per
write attempt; a false entry is a write that returned backpressure, and an
exhausted oracle behaves as backpressure. -/

structure RtpTcpState where
  closed : Bool
  sending : Bool
  interleaved : Bool
  rtpChannel : Nat
  rtcpChannel : Nat
  sendQueue : List (List Nat)
  wire : List (List Nat)
  deriving Repr, DecidableEq

/-- Constructor state of RtpTcp: open, not sending, interleaved true,
empty queue. -/
def rtpTcpInit (rtpChannel rtcpChannel : Nat) : RtpTcpState :=
  ⟨false, false, true, rtpChannel, rtcpChannel, [], []⟩

/-- Drain loop of processQueue: while the queue is nonempty, attempt
clientSocket.write on the head packet; a false return (socket buffer full)
leaves the rest queued until the next drain event. -/
def processLoop : List Bool → List (List Nat) → List (List Nat) →
    List (List Nat) × List (List Nat)
  | _, [], wire => ([], wire)
  | [], queue, wire => (queue, wire)
  | ok :: acc, pkt :: queue, wire =>
    if ok then processLoop acc queue (wire ++ [pkt]) else (pkt :: queue, wire)

/-- processQueue: a no-op when closed, reentrant (sending) or the queue is
empty; otherwise the drain loop runs. -/
def processQueue (acc : List Bool) (s : RtpTcpState) : RtpTcpState :=
  if s.closed || s.sending || s.sendQueue.isEmpty then s
  else
    { s with sendQueue := (processLoop acc s.sendQueue s.wire).1,
             wire := (processLoop acc s.sendQueue s.wire).2 }

/-- queuePacket: early return when closed; build the 4-byte header (0x24,
channel byte, 16-bit big-endian length) in front of the payload, push the
framed packet onto the send queue, run processQueue.  Buffer.writeUInt8
throws on a channel value above 255 and Buffer.writeUInt16BE throws on a
length above 65535; a throw is the error result. -/
def queuePacket (acc : List Bool) (packet : List Nat) (isRtp : Bool)
    (s : RtpTcpState) : Except Unit RtpTcpState :=
  if s.closed then .ok s
  else
    if (if isRtp then s.rtpChannel else s.rtcpChannel) > 255 then .error ()
    else if packet.length > 65535 then .error ()
    else .ok (processQueue acc
      { s with sendQueue :=
          s.sendQueue ++ [encFrame (if isRtp then s.rtpChannel else s.rtcpChannel) packet] })

/-- sendInterleavedRtp: guarded no-op when closed or not interleaved (the
clientSocket reference is always present), then queuePacket on the RTP
channel. -/
def sendInterleavedRtp (acc : List Bool) (buffer : List Nat) (s : RtpTcpState) :
    Except Unit RtpTcpState :=
  if s.closed || !s.interleaved then .ok s else queuePacket acc buffer true s

/-- sendInterleavedRtcp: as sendInterleavedRtp on the RTCP channel. -/
def sendInterleavedRtcp (acc : List Bool) (buffer : List Nat) (s : RtpTcpState) :
    Except Unit RtpTcpState :=
  if s.closed || !s.interleaved then .ok s else queuePacket acc buffer false s

/-- close of RtpTcp: idempotent, drops the queue and marks the object
closed (the socket is ended and destroyed). -/
def rtpTcpClose (s : RtpTcpState) : RtpTcpState :=
  if s.closed then s else { s with closed := true, sendQueue := [] }

theorem processLoop_frames : ∀ (acc : List Bool) (queue wire : List (List Nat)),
    (processLoop acc queue wire).2 ++ (processLoop acc queue wire).1 = wire ++ queue := by
  intro acc
  induction acc with
  | nil =>
    intro queue wire
    cases queue with
    | nil => simp [processLoop]
    | cons pkt q => simp [processLoop]
  | cons ok acc ih =>
    intro queue wire
    cases queue with
    | nil => simp [processLoop]
    | cons pkt q =>
      by_cases hok : ok = true
      · subst hok
        simp only [processLoop, if_true]
        rw [ih q (wire ++ [pkt]), List.append_assoc]
        simp
      · have : ok = false := by revert hok; cases ok <;> simp
        subst this
        simp [processLoop]

theorem processQueue_frames (acc : List Bool) (s : RtpTcpState) :
    (processQueue acc s).wire ++ (processQueue acc s).sendQueue =
      s.wire ++ s.sendQueue := by
  unfold processQueue
  by_cases hc : (s.closed || s.sending || s.sendQueue.isEmpty) = true
  · simp [hc]
  · simp only [hc, if_false, Bool.false_eq_true]
    exact processLoop_frames acc s.sendQueue s.wire

/-- C10: on an open interleaver, sendInterleavedRtp and sendInterleavedRtcp
with a payload of at most 65535 bytes (and a byte-valued channel, as the
header write requires) succeed and add exactly one frame to the
wire-plus-queue sequence, a frame whose big-endian 16-bit length field
decodes to the payload length; with a longer payload both calls throw
(error) instead of truncating or sending; on a closed interleaver both
calls are no-ops for every payload. -/
theorem C10_interleaved_send (s : RtpTcpState) (acc : List Bool) (p : List Nat) :
    (s.closed = false → s.interleaved = true → s.rtpChannel ≤ 255 → p.length ≤ 65535 →
      ∃ s2, sendInterleavedRtp acc p s = .ok s2 ∧
        s2.wire ++ s2.sendQueue = s.wire ++ (s.sendQueue ++ [encFrame s.rtpChannel p]) ∧
        (p.length / 256) * 256 + p.length % 256 = p.length)
    ∧
    (s.closed = false → s.interleaved = true → s.rtcpChannel ≤ 255 → p.length ≤ 65535 →
      ∃ s2, sendInterleavedRtcp acc p s = .ok s2 ∧
        s2.wire ++ s2.sendQueue = s.wire ++ (s.sendQueue ++ [encFrame s.rtcpChannel p]) ∧
        (p.length / 256) * 256 + p.length % 256 = p.length)
    ∧
    (s.closed = false → s.interleaved = true → p.length > 65535 →
      (s.rtpChannel ≤ 255 → sendInterleavedRtp acc p s = .error ()) ∧
      (s.rtcpChannel ≤ 255 → sendInterleavedRtcp acc p s = .error ()))
    ∧
    (s.closed = true →
      sendInterleavedRtp acc p s = .ok s ∧ sendInterleavedRtcp acc p s = .ok s) := by
  refine ⟨?_, ?_, ?_, ?_⟩
  · intro hcl hint hch hlen
    have h1 : ¬ s.rtpChannel > 255 := by omega
    have h2 : ¬ p.length > 65535 := by omega
    have heq : sendInterleavedRtp acc p s = .ok (processQueue acc
        { s with sendQueue := s.sendQueue ++ [encFrame s.rtpChannel p] }) := by
      simp [sendInterleavedRtp, queuePacket, hcl, hint, h1, h2]
    refine ⟨_, heq, ?_, by omega⟩
    rw [processQueue_frames]
  · intro hcl hint hch hlen
    have h1 : ¬ s.rtcpChannel > 255 := by omega
    have h2 : ¬ p.length > 65535 := by omega
    have heq : sendInterleavedRtcp acc p s = .ok (processQueue acc
        { s with sendQueue := s.sendQueue ++ [encFrame s.rtcpChannel p] }) := by
      simp [sendInterleavedRtcp, queuePacket, hcl, hint, h1, h2]
    refine ⟨_, heq, ?_, by omega⟩
    rw [processQueue_frames]
  · intro hcl hint hlen
    constructor
    · intro hch
      have h1 : ¬ s.rtpChannel > 255 := by omega
      simp [sendInterleavedRtp, queuePacket, hcl, hint, h1, hlen]
    · intro hch
      have h1 : ¬ s.rtcpChannel > 255 := by omega
      simp [sendInterleavedRtcp, queuePacket, hcl, hint, h1, hlen]
  · intro hcl
    constructor <;> simp [sendInterleavedRtp, sendInterleavedRtcp, hcl]

/-- C10 witness: a freshly constructed interleaver with channels 0 and 1,
payload of three bytes, an oracle accepting the first write. -/
theorem C10_witness :
    ∃ s2, sendInterleavedRtp [true] [7, 7, 7] (rtpTcpInit 0 1) = .ok s2 ∧
      s2.wire ++ s2.sendQueue =
        (rtpTcpInit 0 1).wire ++
          ((rtpTcpInit 0 1).sendQueue ++ [encFrame (rtpTcpInit 0 1).rtpChannel [7, 7, 7]]) ∧
      (([7, 7, 7] : List Nat).length / 256) * 256 + ([7, 7, 7] : List Nat).length % 256 =
        ([7, 7, 7] : List Nat).length :=
  (C10_interleaved_send (rtpTcpInit 0 1) [true] [7, 7, 7]).1 rfl rfl (by decide) (by decide)

/-! ## The Mounts port pool

Modelled from the spec: Mounts.ts is not among the given sources.  Spec
section 3 (Port Pool): an ordered multiset of available RTP start ports;
get pops the smallest available, return reinserts in order, get returns
none when the pool is empty. -/

/-- Modelled from the spec: returnRtpPortToPool reinserts a port in order. -/
def poolReturn (port : Nat) : List Nat → List Nat
  | [] => [port]
  | q :: rest => if port ≤ q then port :: q :: rest else q :: poolReturn port rest

/-- Modelled from the spec: getNextRtpPort pops the smallest available
port, returning none when the pool is exhausted. -/
def poolNext : List Nat → Option (Nat × List Nat)
  | [] => none
  | q :: rest => some (q, rest)

/-! ## src/lib/Client.ts : subscriber session close

Local state of one Client and the containers its close method touches.
The stream maps hold session ids.  The RtpTcp object a TCP client creates
is also registered in the stream tcpClients map; the client-side reference
(this.rtpTcp) is modelled separately (rtpTcpRef) from the object (tcpObj)
because close clears the reference but not the registration. -/

structure ClientCloseState where
  openFlag : Bool
  cid : Nat
  transportIsTcp : Bool
  rtpTcpRef : Bool
  tcpObj : Option RtpTcpState
  rtpUdpRef : Bool
  rtpUdpClosed : Bool
  udpSocketsClosed : Bool
  rtpServerPort : Option Nat
  streamClients : List Nat
  streamTcpClients : List Nat
  pool : List Nat
  deriving Repr, DecidableEq

/-- Embedding of Client.close (src/lib/Client.ts lines 183-222), in source
order: early return unless open; clear open; delete this session from
stream.clients; when this.rtpTcp is set, close it and set the reference to
undefined; when this.rtpUdp is set, close it and clear it; then the branch
guarded by transportType tcp AND this.rtpTcp — the reference was just
cleared, so the branch (which would delete from stream.tcpClients) never
runs — else the udp branch closes the two UDP sockets; finally return the
allocated server port to the pool when one exists. -/
def clientClose (s : ClientCloseState) : ClientCloseState :=
  if !s.openFlag then s
  else
    let s1 := { s with openFlag := false,
                       streamClients := s.streamClients.filter (fun x => x ≠ s.cid) }
    let s2 := if s1.rtpTcpRef then
        { s1 with tcpObj := s1.tcpObj.map rtpTcpClose, rtpTcpRef := false }
      else s1
    let s3 := if s2.rtpUdpRef then
        { s2 with rtpUdpClosed := true, rtpUdpRef := false }
      else s2
    let s4 :=
      if s3.transportIsTcp && s3.rtpTcpRef then
        { s3 with tcpObj := s3.tcpObj.map rtpTcpClose,
                  streamTcpClients := s3.streamTcpClients.filter (fun x => x ≠ s3.cid) }
      else if !s3.transportIsTcp then { s3 with udpSocketsClosed := true }
      else s3
    match s4.rtpServerPort with
    | some p => { s4 with pool := poolReturn p s4.pool }
    | none => s4

/-- C4 failing input: an open TCP subscriber session registered in both
stream maps, with its interleaver object present. -/
def c4FailingInput : ClientCloseState :=
  { openFlag := true, cid := 1, transportIsTcp := true, rtpTcpRef := true,
    tcpObj := some (rtpTcpInit 0 1), rtpUdpRef := false, rtpUdpClosed := false,
    udpSocketsClosed := false, rtpServerPort := none,
    streamClients := [1], streamTcpClients := [1], pool := [] }

/-- C4: evaluating Client.close at the failing input.  The first call does
flip open to false, removes the session from stream.clients and closes the
interleaver object, and a second call is a no-op; but the session is NOT
removed from stream.tcpClients, because line 195 of Client.ts sets
this.rtpTcp to undefined before line 204 tests it, so the removal branch
is dead code (contradicting its own comment). -/
theorem C4_close_leaves_tcpClients :
    (clientClose c4FailingInput).openFlag = false ∧
    (clientClose c4FailingInput).streamClients = [] ∧
    (clientClose c4FailingInput).tcpObj = some (rtpTcpClose (rtpTcpInit 0 1)) ∧
    (clientClose c4FailingInput).streamTcpClients = [1] ∧
    clientClose (clientClose c4FailingInput) = clientClose c4FailingInput := by
  refine ⟨?_, ?_, ?_, ?_, ?_⟩ <;> decide

/-! ## src/lib/Mount.ts : close, and the publisher disconnect cleanup of
src/unnamed/part_000 (PublishServer.handlePublisherDisconnect) -/

/-- One stream of a mount as Mount.close sees it: the two optional UDP
listeners (with the port each is bound to), and the two client maps. -/
structure MountStream where
  sid : Nat
  listenerRtpPort : Option Nat
  listenerRtcpPort : Option Nat
  clients : List Nat
  tcpClients : List Nat
  deriving Repr, DecidableEq

/-- Ports pushed for one stream by Mount.close: the RTP listener port and
then the RTCP listener port, each when the listener exists. -/
def streamClosePorts (st : MountStream) : List Nat :=
  (match st.listenerRtpPort with | some p => [p] | none => []) ++
  (match st.listenerRtcpPort with | some p => [p] | none => [])

/-- Embedding of Mount.close (src/lib/Mount.ts lines 140-174): for every
stream push the ports of both listeners and close them, close every
subscriber session, clear both client maps, then clear the streams map;
the collected port list is returned. -/
def mountClose (streams : List MountStream) : List Nat × List MountStream :=
  ((streams.map streamClosePorts).flatten, [])

/-- Registry / pool / session state touched by the publisher disconnect
cleanup.  The registry is the Mounts path-to-mount map (modelled from the
spec since Mounts.ts is not among the sources); its keys are normalized
paths, so the lookup of mount.path is a direct association lookup. -/
structure PubCleanupResult where
  pool : List Nat
  registry : List (List Char × Nat)
  sessions : List Nat
  deriving Repr, DecidableEq

/-- Embedding of PublishServer.handlePublisherDisconnect (part_000 lines
316-348): call mount.close, return every listed port to the pool in
order, delete the mount from the registry when still present, and drop
the session entry for the publisher socket. -/
def handlePublisherDisconnect (mountPath : List Char) (mountId : Nat)
    (streams : List MountStream) (pool : List Nat)
    (registry : List (List Char × Nat)) (sessions : List Nat) : PubCleanupResult :=
  let ports := (mountClose streams).1
  let pool2 := ports.foldl (fun pl port => poolReturn port pl) pool
  let registry2 :=
    if (registry.lookup mountPath).isSome then
      registry.filter (fun e => e.1 ≠ mountPath)
    else registry
  let sessions2 := sessions.filter (fun x => x ≠ mountId)
  ⟨pool2, registry2, sessions2⟩

/-- C1: evaluated at a mount with a single stream whose listeners are
bound at ports 50000 and 50001 (the pool handed out only the even start
port 50000; 50001 is implicitly its pair).  Mount.close returns BOTH
ports, not only the allocated even RTP start port, and the disconnect
cleanup therefore inserts the odd port 50001 — which the pool never
handed out — into the pool: starting from the pool remainder [50002]
(initial pool [50000, 50002] minus the allocated 50000), the pool after
cleanup is [50000, 50001, 50002] instead of the initial [50000, 50002]. -/
theorem C1_close_returns_both_ports :
    (mountClose [⟨0, some 50000, some 50001, [], []⟩]).1 = [50000, 50001] ∧
    (handlePublisherDisconnect ['/', 'a'] 7 [⟨0, some 50000, some 50001, [], []⟩]
        [50002] [(['/', 'a'], 7)] [7]).pool = [50000, 50001, 50002] ∧
    (mountClose [⟨0, some 50000, some 50001, [], []⟩]).1 ≠ [50000] ∧
    ([50000, 50001, 50002] : List Nat) ≠ [50000, 50002] := by
  refine ⟨?_, ?_, ?_, ?_⟩ <;> decide

/-! ## src/unnamed/part_000 : PublishServer

The request object carries the fields the handlers read.  Hooks and the
basic-auth parser are external collaborators passed as functions; a hook
that is not configured is the false flag (authConfigured) or the none
result (checkMountRes). -/

/-- Media transport of a subscriber session. -/
inductive Transport where
  | udp
  | tcp
  deriving Repr, DecidableEq

/-- One subscriber session as the publish-side fan-out and Mount.setup see
it: its transport type, whether its rtpTcp interleaver reference is set,
and the interleaved channel pair of that interleaver. -/
structure SubClient where
  transport : Transport
  hasRtpTcp : Bool
  rtpChannel : Nat
  rtcpChannel : Nat
  deriving Repr, DecidableEq

/-- One stream of a mount as Mount.setup and the TCP fan-out see it: the
allocated port pair, the clients map, and the UDP listeners (none when
closed or never bound). -/
structure SetupStream where
  rtpStartPort : Nat
  rtpEndPort : Nat
  clients : List (Nat × SubClient)
  listenerRtp : Option Nat
  listenerRtcp : Option Nat
  deriving Repr, DecidableEq

/-- The guard of the re-bind in Mount.setup: at least one client of the
stream has transportType udp. -/
def hasUdpClient (st : SetupStream) : Bool :=
  st.clients.any fun c => c.2.transport = Transport.udp

/-- Expected effect of one successful setup pass on one stream entry:
streams with a UDP subscriber get fresh listeners bound on their current
ports, all other streams are untouched. -/
def setupBindExpected (e : Nat × SetupStream) : Nat × SetupStream :=
  if hasUdpClient e.2 then
    (e.1, { e.2 with listenerRtp := some e.2.rtpStartPort,
                     listenerRtcp := some (e.2.rtpStartPort + 1) })
  else e

/-- One pass of Mount.setup (src/lib/Mount.ts lines 92-138) over the
streams in order, with bind outcomes decided by the busy oracle (a port
binds iff not busy; a busy port raises EADDRINUSE).  On a bind failure the
pass closes the listener pair (the fields stay unbound), returns the
stream RTP start port to the pool, takes a fresh start port (throwing when
the pool yields none), updates rtpStartPort and rtpEndPort, flags
portError and continues with the remaining streams. -/
def setupPass (busy : Nat → Bool) :
    List (Nat × SetupStream) → List Nat →
    Except String (Bool × List Nat × List (Nat × SetupStream))
  | [], pool => .ok (false, pool, [])
  | (i, st) :: rest, pool =>
    if hasUdpClient st then
      if busy st.rtpStartPort || busy (st.rtpStartPort + 1) then
        match poolNext (poolReturn st.rtpStartPort pool) with
        | none => .error "Unable to get another start port"
        | some (q, pool3) =>
          match setupPass busy rest pool3 with
          | .error e => .error e
          | .ok (_, pool4, rest2) =>
            .ok (true, pool4, (i, { st with rtpStartPort := q, rtpEndPort := q + 1 }) :: rest2)
      else
        match setupPass busy rest pool with
        | .error e => .error e
        | .ok (pe, pool4, rest2) =>
          .ok (pe, pool4, (i, { st with listenerRtp := some st.rtpStartPort,
                                        listenerRtcp := some (st.rtpStartPort + 1) }) :: rest2)
    else
      match setupPass busy rest pool with
      | .error e => .error e
      | .ok (pe, pool4, rest2) => .ok (pe, pool4, (i, st) :: rest2)

/-- Mount.setup with its restart: when a pass flagged portError the whole
pass restarts on the updated streams and pool.  Fuel bounds the number of
passes; none means the retry loop was still running. -/
def setupFuel (busy : Nat → Bool) : Nat → List (Nat × SetupStream) → List Nat →
    Option (Except String (List Nat × List (Nat × SetupStream)))
  | 0, _, _ => none
  | fuel + 1, streams, pool =>
    match setupPass busy streams pool with
    | .error e => some (.error e)
    | .ok (portError, pool2, streams2) =>
      if portError then setupFuel busy fuel streams2 pool2
      else some (.ok (pool2, streams2))

/-- A mount of the publish server: session id, opaque SDP, optional range,
streams. -/
structure PubMount where
  mid : Nat
  sdp : List Char
  range : Option (List Char)
  streams : List (Nat × SetupStream)
  deriving Repr, DecidableEq

/-- Modelled from the spec (Mounts.ts is not among the sources): getMount
normalizes the uri through getMountInfo and looks the path up in the
path-to-mount map. -/
def getMount (registry : List (List Char × PubMount)) (uri : List Char) : Option PubMount :=
  registry.lookup (getMountInfoL uri).path

/-- Modelled from the spec: deleteMount removes the mount registered at
the normalized path, without closing it. -/
def deleteMountR (registry : List (List Char × PubMount)) (uri : List Char) :
    List (List Char × PubMount) :=
  registry.filter fun e => e.1 ≠ (getMountInfoL uri).path

/-- Modelled from the spec: addMount creates a mount with a fresh id and
inserts it at the normalized path. -/
def addMount (registry : List (List Char × PubMount)) (uri : List Char)
    (m : PubMount) : List (List Char × PubMount) :=
  registry ++ [((getMountInfoL uri).path, m)]

/-- RECORD captures the Range header on the mount when one is supplied. -/
def applyRange (m : PubMount) (range : Option (List Char)) : PubMount :=
  match range with
  | some r => { m with range := some r }
  | none => m

/-- Replace the mount registered at the normalized path of a uri. -/
def registryUpdate (registry : List (List Char × PubMount)) (uri : List Char)
    (m : PubMount) : List (List Char × PubMount) :=
  registry.map fun e => if e.1 = (getMountInfoL uri).path then (e.1, m) else e

/-- An RTSP response: the status code (200 when a handler only calls
res.end) and the headers set on it. -/
structure Resp where
  statusCode : Nat
  headers : List (String × String)
  deriving Repr, DecidableEq

/-- The parts of a publisher request the handlers read. -/
structure PubRequest where
  uri : List Char
  authorization : Option String
  session : Option Nat
  deriving Repr, DecidableEq

/-- The mutable state of a PublishServer (and the process-wide registry
and pool it reaches through Mounts): the single authenticatedHeader field
shared by all publisher connections, the registry, the pool, the active
session ids and the uuid source. -/
structure PubState where
  authenticatedHeader : Option String
  registry : List (List Char × PubMount)
  pool : List Nat
  sessions : List Nat
  nextId : Nat
  deriving Repr, DecidableEq

/-- The 401 response with the Basic challenge. -/
def resp401 : Resp := ⟨401, [("WWW-Authenticate", "Basic realm=\"rtsp\"")]⟩

/-- Embedding of PublishServer.checkAuthenticated (part_000 lines
303-314): only when the authentication hook is configured AND a header has
been stored does the request Authorization have to equal the stored one;
otherwise the check passes. -/
def pubCheckAuthenticated (authConfigured : Bool) (st : PubState) (req : PubRequest) : Bool :=
  if authConfigured && st.authenticatedHeader.isSome then
    if req.authorization = st.authenticatedHeader then true else false
  else true

/-- The body ("end" event) of announceRequest: the checkMount hook may
reject with 403; an existing mount at the path is 503 with no state
change; otherwise the mount is created and registered, disconnect
handlers and the session entry are installed, and the Session header is
set. -/
def announceBody (checkMountRes : Option Bool) (st : PubState) (req : PubRequest)
    (sdpBody : List Char) : Resp × PubState :=
  match checkMountRes with
  | some false => (⟨403, []⟩, st)
  | _ =>
    match getMount st.registry req.uri with
    | some _ => (⟨503, []⟩, st)
    | none =>
      let m : PubMount := ⟨st.nextId, sdpBody, none, []⟩
      (⟨200, [("Session", toString st.nextId ++ ";timeout=30")]⟩,
        { st with registry := addMount st.registry req.uri m,
                  sessions := st.sessions ++ [st.nextId],
                  nextId := st.nextId + 1 })

/-- Embedding of PublishServer.announceRequest (part_000 lines 91-160):
when the authentication hook is configured, a missing, unparsable or
rejected Authorization header is 401 with the Basic challenge; an accepted
one is stored in the shared authenticatedHeader field (overwriting any
previous value) before the body runs. -/
def announceRequest (authConfigured : Bool) (parse : String → Option (String × String))
    (authAllows : String → String → Bool) (checkMountRes : Option Bool)
    (st : PubState) (req : PubRequest) (sdpBody : List Char) : Resp × PubState :=
  if authConfigured then
    match req.authorization with
    | none => (resp401, st)
    | some a =>
      match parse a with
      | none => (resp401, st)
      | some (u, p) =>
        if authAllows u p then
          announceBody checkMountRes { st with authenticatedHeader := some a } req sdpBody
        else (resp401, st)
  else announceBody checkMountRes st req sdpBody

/-- The authentication gate of PublishServer.setupRequest: a failed
auth-match check responds 401 and nothing else runs; the rest of the
handler (mount lookup, transport parsing, createStream, the TCP data
handler) is the injected continuation, universally quantified in the
theorems about the gate. -/
def setupRequestGate (authConfigured : Bool) (cont : PubState → Resp × PubState)
    (st : PubState) (req : PubRequest) : Resp × PubState :=
  if !pubCheckAuthenticated authConfigured st req then (resp401, st) else cont st

/-- Embedding of PublishServer.recordRequest (part_000 lines 254-280):
auth-match gate (401), mount lookup and session check (454), range
capture, then mount.setup; a setup error is surfaced as 500, success as
200 with the updated mount and pool written back.  The none result stands
for a setup retry loop still running. -/
def recordRequest (authConfigured : Bool) (busy : Nat → Bool) (fuel : Nat)
    (st : PubState) (req : PubRequest) (range : Option (List Char)) :
    Option (Resp × PubState) :=
  if !pubCheckAuthenticated authConfigured st req then some (resp401, st)
  else
    match getMount st.registry req.uri with
    | none => some (⟨454, []⟩, st)
    | some m =>
      if req.session = some m.mid then
        let m2 := applyRange m range
        match setupFuel busy fuel m2.streams st.pool with
        | none => none
        | some (.error _) =>
          some (⟨500, []⟩, { st with registry := registryUpdate st.registry req.uri m2 })
        | some (.ok (pool2, streams2)) =>
          some (⟨200, []⟩,
            { st with
              pool := pool2
              registry := registryUpdate st.registry req.uri { m2 with streams := streams2 } })
      else some (⟨454, []⟩, st)

/-- Embedding of PublishServer.teardownRequest (part_000 lines 287-296):
auth-match gate, then deleteMount on the request uri, 200. -/
def teardownRequest (authConfigured : Bool) (st : PubState) (req : PubRequest) :
    Resp × PubState :=
  if !pubCheckAuthenticated authConfigured st req then (resp401, st)
  else (⟨200, []⟩, { st with registry := deleteMountR st.registry req.uri })

/-- Embedding of the per-frame dispatch of the publisher TCP data handler
(part_000 lines 221-233): look up mount.streams[0] (the comment in the
source reads: Assuming stream ID 0); when absent the frame is dropped;
otherwise every client of stream zero whose transportType is tcp and whose
rtpTcp reference is set receives the payload, as RTP when the frame
channel equals the rtpChannel parsed from the PUBLISHER SETUP transport
header, as RTCP when it equals the publisher rtcpChannel.  The result
lists (client id, role, payload) deliveries. -/
def tcpDispatch (streams : List (Nat × SetupStream)) (pubRtpCh pubRtcpCh : Nat)
    (ch : Nat) (payload : List Nat) : List (Nat × Bool × List Nat) :=
  match streams.lookup 0 with
  | none => []
  | some stream =>
    stream.clients.filterMap fun c =>
      if c.2.transport = Transport.tcp ∧ c.2.hasRtpTcp = true then
        if ch = pubRtpCh then some (c.1, true, payload)
        else if ch = pubRtcpCh then some (c.1, false, payload)
        else none
      else none

/-- The dispatch the claim wording describes, for comparison: the frame
channel is matched against EACH CLIENT's own RTP or RTCP channel. -/
def tcpDispatchClaimed (streams : List (Nat × SetupStream)) (ch : Nat)
    (payload : List Nat) : List (Nat × Bool × List Nat) :=
  match streams.lookup 0 with
  | none => []
  | some stream =>
    stream.clients.filterMap fun c =>
      if c.2.transport = Transport.tcp ∧ c.2.hasRtpTcp = true then
        if ch = c.2.rtpChannel then some (c.1, true, payload)
        else if ch = c.2.rtcpChannel then some (c.1, false, payload)
        else none
      else none

theorem setupPass_free (busy : Nat → Bool) :
    ∀ (streams : List (Nat × SetupStream)) (pool : List Nat),
    (∀ e ∈ streams, hasUdpClient e.2 = true →
      busy e.2.rtpStartPort = false ∧ busy (e.2.rtpStartPort + 1) = false) →
    setupPass busy streams pool = .ok (false, pool, streams.map setupBindExpected) := by
  intro streams
  induction streams with
  | nil => intro pool h; rfl
  | cons e rest ih =>
    intro pool h
    obtain ⟨i, st⟩ := e
    have hrest := ih pool fun e2 he2 hue2 => h e2 (by simp [he2]) hue2
    by_cases hu : hasUdpClient st = true
    · obtain ⟨h1, h2⟩ := h (i, st) (by simp) hu
      simp [setupPass, hu, h1, h2, hrest, setupBindExpected]
    · have hu2 : hasUdpClient st = false := by
        revert hu; cases hasUdpClient st <;> simp
      simp [setupPass, hu2, hrest, setupBindExpected]

/-- C5: a publisher ANNOUNCE for a path already resolving to a mount is
answered 503 (provided authentication and the checkMount hook let the
request through, since they run first) and changes nothing: the registry
and the pool are untouched and the first mount stays resolvable. -/
theorem C5_duplicate_announce (authConfigured : Bool)
    (parse : String → Option (String × String)) (authAllows : String → String → Bool)
    (checkMountRes : Option Bool) (st : PubState) (req : PubRequest)
    (sdp : List Char) (m : PubMount)
    (hm : getMount st.registry req.uri = some m)
    (hauth : authConfigured = true →
      ∃ a u p, req.authorization = some a ∧ parse a = some (u, p) ∧ authAllows u p = true)
    (hcm : checkMountRes ≠ some false) :
    (announceRequest authConfigured parse authAllows checkMountRes st req sdp).1.statusCode
        = 503 ∧
    (announceRequest authConfigured parse authAllows checkMountRes st req sdp).2.registry
        = st.registry ∧
    (announceRequest authConfigured parse authAllows checkMountRes st req sdp).2.pool
        = st.pool ∧
    getMount (announceRequest authConfigured parse authAllows checkMountRes st req
        sdp).2.registry req.uri = some m := by
  have hbody : ∀ st2 : PubState, st2.registry = st.registry →
      announceBody checkMountRes st2 req sdp = (⟨503, []⟩, st2) := by
    intro st2 hreg
    have hm2 : getMount st2.registry req.uri = some m := by rw [hreg]; exact hm
    cases checkMountRes with
    | none => simp [announceBody, hm2]
    | some b =>
      cases b with
      | false => exact absurd rfl hcm
      | true => simp [announceBody, hm2]
  cases authConfigured with
  | false =>
    have h := hbody st rfl
    refine ⟨?_, ?_, ?_, ?_⟩ <;> simp [announceRequest, h, hm]
  | true =>
    obtain ⟨a, u, p, ha, hp, hall⟩ := hauth rfl
    have h := hbody { st with authenticatedHeader := some a } rfl
    refine ⟨?_, ?_, ?_, ?_⟩ <;> simp [announceRequest, ha, hp, hall, h, hm]

/-- C5 witness: a registry already holding a mount at /a, a second
ANNOUNCE for the same path with the authentication hook configured and
passing. -/
theorem C5_witness :
    (announceRequest true (fun _ => some ("u", "p")) (fun _ _ => true) (some true)
      ⟨none, [(['/', 'a'], ⟨1, [], none, []⟩)], [50000], [], 2⟩
      ⟨['/', 'a'], some "Basic dXNlcg==", none⟩ []).1.statusCode = 503 ∧
    (announceRequest true (fun _ => some ("u", "p")) (fun _ _ => true) (some true)
      ⟨none, [(['/', 'a'], ⟨1, [], none, []⟩)], [50000], [], 2⟩
      ⟨['/', 'a'], some "Basic dXNlcg==", none⟩ []).2.registry =
        [(['/', 'a'], ⟨1, [], none, []⟩)] ∧
    (announceRequest true (fun _ => some ("u", "p")) (fun _ _ => true) (some true)
      ⟨none, [(['/', 'a'], ⟨1, [], none, []⟩)], [50000], [], 2⟩
      ⟨['/', 'a'], some "Basic dXNlcg==", none⟩ []).2.pool = [50000] ∧
    getMount (announceRequest true (fun _ => some ("u", "p")) (fun _ _ => true) (some true)
      ⟨none, [(['/', 'a'], ⟨1, [], none, []⟩)], [50000], [], 2⟩
      ⟨['/', 'a'], some "Basic dXNlcg==", none⟩ []).2.registry ['/', 'a'] =
        some ⟨1, [], none, []⟩ :=
  C5_duplicate_announce true (fun _ => some ("u", "p")) (fun _ _ => true) (some true)
    ⟨none, [(['/', 'a'], ⟨1, [], none, []⟩)], [50000], [], 2⟩
    ⟨['/', 'a'], some "Basic dXNlcg==", none⟩ [] ⟨1, [], none, []⟩
    (by decide) (fun _ => ⟨"Basic dXNlcg==", "u", "p", rfl, rfl, rfl⟩) (by decide)

/-- C6: the port-cycling retry of Mount.setup.  First conjunct: when every
stream with a UDP subscriber has both ports free, one pass succeeds,
binding listeners only for those streams, leaving others and the pool
untouched.  Second: a stream whose pair is busy has its pair closed, its
start port returned to the pool, a fresh smallest port taken, its port
fields updated, and the whole pass restarted, after which (the fresh pair
being free) setup succeeds with the updated stream.  Third: if the fresh
take yielded no port, setup fails with the error the source throws (under
the spec pool, return followed by get always yields a port, so this
branch cannot trigger).  Fourth: a setup error is surfaced by RECORD as
status 500. -/
theorem C6_mount_setup :
    (∀ (busy : Nat → Bool) (fuel : Nat) (streams : List (Nat × SetupStream))
      (pool : List Nat),
      (∀ e ∈ streams, hasUdpClient e.2 = true →
        busy e.2.rtpStartPort = false ∧ busy (e.2.rtpStartPort + 1) = false) →
      setupFuel busy (fuel + 1) streams pool =
        some (.ok (pool, streams.map setupBindExpected)))
    ∧
    (∀ (busy : Nat → Bool) (fuel i : Nat) (st : SetupStream) (pool : List Nat)
      (q : Nat) (pool3 : List Nat),
      hasUdpClient st = true →
      (busy st.rtpStartPort || busy (st.rtpStartPort + 1)) = true →
      poolNext (poolReturn st.rtpStartPort pool) = some (q, pool3) →
      busy q = false → busy (q + 1) = false →
      setupFuel busy (fuel + 2) [(i, st)] pool =
        some (.ok (pool3, [(i, { st with rtpStartPort := q, rtpEndPort := q + 1, listenerRtp := some q, listenerRtcp := some (q + 1) })])))
    ∧
    (∀ (busy : Nat → Bool) (fuel i : Nat) (st : SetupStream) (pool : List Nat),
      hasUdpClient st = true →
      (busy st.rtpStartPort || busy (st.rtpStartPort + 1)) = true →
      poolNext (poolReturn st.rtpStartPort pool) = none →
      setupFuel busy (fuel + 1) [(i, st)] pool =
        some (.error "Unable to get another start port"))
    ∧
    (∀ (authConfigured : Bool) (busy : Nat → Bool) (fuel : Nat) (st : PubState)
      (req : PubRequest) (range : Option (List Char)) (m : PubMount) (e : String),
      pubCheckAuthenticated authConfigured st req = true →
      getMount st.registry req.uri = some m →
      req.session = some m.mid →
      setupFuel busy fuel (applyRange m range).streams st.pool = some (.error e) →
      ∃ st2, recordRequest authConfigured busy fuel st req range =
        some (⟨500, []⟩, st2)) := by
  refine ⟨?_, ?_, ?_, ?_⟩
  · intro busy fuel streams pool h
    simp [setupFuel, setupPass_free busy streams pool h]
  · intro busy fuel i st pool q pool3 hu hbusy hnext hq1 hq2
    have hpass1 : setupPass busy [(i, st)] pool =
        .ok (true, pool3, [(i, { st with rtpStartPort := q, rtpEndPort := q + 1 })]) := by
      simp [setupPass, hu, hbusy, hnext]
    have hu2 : hasUdpClient { st with rtpStartPort := q, rtpEndPort := q + 1 } = true := by
      simpa [hasUdpClient] using hu
    have hpass2 : setupPass busy
        [(i, { st with rtpStartPort := q, rtpEndPort := q + 1 })] pool3 =
        .ok (false, pool3, [(i, { st with rtpStartPort := q, rtpEndPort := q + 1, listenerRtp := some q, listenerRtcp := some (q + 1) })]) := by
      have := setupPass_free busy
        [(i, { st with rtpStartPort := q, rtpEndPort := q + 1 })] pool3
        (by intro e2 he2 hue2; simp at he2; simp [he2, hq1, hq2])
      simpa [setupBindExpected, hu2] using this
    show setupFuel busy (fuel + 1 + 1) [(i, st)] pool = _
    rw [setupFuel, hpass1]
    simp only [if_true]
    rw [setupFuel, hpass2]
    simp
  · intro busy fuel i st pool hu hbusy hnext
    simp [setupFuel, setupPass, hu, hbusy, hnext]
  · intro authConfigured busy fuel st req range m e hauth hm hsess hsetup
    refine ⟨{ st with registry := registryUpdate st.registry req.uri (applyRange m range) }, ?_⟩
    simp [recordRequest, hauth, hm, hsess, hsetup]

/-- C6 witness: one stream with a UDP subscriber on the busy pair
50000-50001; the pool holds 49000; setup returns 50000, takes 49000,
restarts and binds at 49000-49001, leaving 50000 in the pool. -/
theorem C6_witness :
    setupFuel (fun port => port == 50000 || port == 50001) 2
      [(3, ⟨50000, 50001, [(5, ⟨Transport.udp, false, 0, 1⟩)], none, none⟩)] [49000] =
    some (.ok ([50000],
      [(3, ⟨49000, 49001, [(5, ⟨Transport.udp, false, 0, 1⟩)], some 49000, some 49001⟩)])) :=
  C6_mount_setup.2.1 (fun port => port == 50000 || port == 50001) 0 3
    ⟨50000, 50001, [(5, ⟨Transport.udp, false, 0, 1⟩)], none, none⟩ [49000] 49000 [50000]
    (by decide) (by decide) (by decide) (by decide) (by decide)

/-- C8 counterexample input: stream 0 has one TCP client whose own
interleaved channels are 2-3, while the publisher channels are the
defaults 0-1; a frame on channel 0 is delivered as RTP by the code, but
matching against the client channels (the claim wording) would deliver
nothing. -/
def c8Streams : List (Nat × SetupStream) :=
  [(0, ⟨50000, 50001, [(9, ⟨Transport.tcp, true, 2, 3⟩)], none, none⟩)]

/-- C8 counterexample: the dispatch matches the publisher channels, not
the client channels as the claim states. -/
theorem C8_counterexample :
    tcpDispatch c8Streams 0 1 0 [42] = [(9, true, [42])] ∧
    tcpDispatchClaimed c8Streams 0 [42] = [] ∧
    tcpDispatch c8Streams 0 1 0 [42] ≠ tcpDispatchClaimed c8Streams 0 [42] := by
  refine ⟨?_, ?_, ?_⟩ <;> decide

/-- C8 amended: the handler looks up mount.streams[0] regardless of the
stream id in the publisher SETUP URI (a mount holding only a nonzero
stream id receives nothing); a frame is delivered exactly to the clients
of stream 0 whose transport is tcp with an interleaver set, as RTP when
the frame channel equals the rtpChannel of the PUBLISHER SETUP transport
header, as RTCP when it equals the publisher rtcpChannel — the client
channels only shape the outgoing frame; and when stream 0 does not exist
the frame is silently dropped. -/
theorem C8_amended :
    (∀ (streams : List (Nat × SetupStream)) (pr pc ch : Nat) (p : List Nat),
      streams.lookup 0 = none → tcpDispatch streams pr pc ch p = [])
    ∧
    (∀ (n : Nat) (st : SetupStream) (pr pc ch : Nat) (p : List Nat),
      n ≠ 0 → tcpDispatch [(n, st)] pr pc ch p = [])
    ∧
    (∀ (streams : List (Nat × SetupStream)) (stream : SetupStream)
      (pr pc ch : Nat) (p : List Nat) (cid : Nat) (isRtp : Bool) (pl : List Nat),
      streams.lookup 0 = some stream →
      ((cid, isRtp, pl) ∈ tcpDispatch streams pr pc ch p ↔
        pl = p ∧ ∃ sc ∈ stream.clients, sc.1 = cid ∧
          sc.2.transport = Transport.tcp ∧ sc.2.hasRtpTcp = true ∧
          ((ch = pr ∧ isRtp = true) ∨ (¬ ch = pr ∧ ch = pc ∧ isRtp = false)))) := by
  refine ⟨?_, ?_, ?_⟩
  · intro streams pr pc ch p hlk
    simp [tcpDispatch, hlk]
  · intro n st pr pc ch p hn
    have hz : ((0 : Nat) == n) = false := beq_eq_false_iff_ne.mpr (Ne.symm hn)
    simp [tcpDispatch, List.lookup, hz]
  · intro streams stream pr pc ch p cid isRtp pl hlk
    unfold tcpDispatch
    rw [hlk, List.mem_filterMap]
    constructor
    · rintro ⟨c, hc, hf⟩
      by_cases h1 : c.2.transport = Transport.tcp ∧ c.2.hasRtpTcp = true
      · rw [if_pos h1] at hf
        by_cases h2 : ch = pr
        · rw [if_pos h2] at hf
          simp only [Option.some.injEq, Prod.mk.injEq] at hf
          exact ⟨hf.2.2.symm, c, hc, hf.1, h1.1, h1.2, Or.inl ⟨h2, hf.2.1.symm⟩⟩
        · rw [if_neg h2] at hf
          by_cases h3 : ch = pc
          · rw [if_pos h3] at hf
            simp only [Option.some.injEq, Prod.mk.injEq] at hf
            exact ⟨hf.2.2.symm, c, hc, hf.1, h1.1, h1.2, Or.inr ⟨h2, h3, hf.2.1.symm⟩⟩
          · rw [if_neg h3] at hf
            exact absurd hf (by simp)
      · rw [if_neg h1] at hf
        exact absurd hf (by simp)
    · rintro ⟨hpl, c, hc, hcid, htr, hrt, hcase⟩
      refine ⟨c, hc, ?_⟩
      rw [if_pos ⟨htr, hrt⟩]
      rcases hcase with ⟨h2, hr⟩ | ⟨h2, h3, hr⟩
      · rw [if_pos h2, hcid, hr, hpl]
      · rw [if_neg h2, if_pos h3, hcid, hr, hpl]

/-- C8 witness: with the publisher channels 0-1 and a TCP client in
stream 0, the channel-0 frame is delivered to that client as RTP. -/
theorem C8_witness :
    (9, true, [42]) ∈ tcpDispatch c8Streams 0 1 0 ([42] : List Nat) :=
  (C8_amended.2.2 c8Streams ⟨50000, 50001, [(9, ⟨Transport.tcp, true, 2, 3⟩)], none, none⟩
    0 1 0 [42] 9 true [42] rfl).mpr
    ⟨rfl, (9, ⟨Transport.tcp, true, 2, 3⟩), by decide, rfl, rfl, rfl, Or.inl ⟨rfl, rfl⟩⟩

theorem announceBody_auth_header (checkMountRes : Option Bool) (st : PubState)
    (req : PubRequest) (sdp : List Char) :
    (announceBody checkMountRes st req sdp).2.authenticatedHeader =
      st.authenticatedHeader := by
  cases checkMountRes with
  | none => cases hg : getMount st.registry req.uri <;> simp [announceBody, hg]
  | some b =>
    cases b with
    | false => simp [announceBody]
    | true => cases hg : getMount st.registry req.uri <;> simp [announceBody, hg]

/-- C9: the publish server stores the accepted Authorization header in the
single authenticatedHeader field shared by all publisher connections:
every ANNOUNCE that passes the configured authentication hook overwrites
it with its own header, whatever the final status of the ANNOUNCE; with
the hook configured and a header stored, the auth-match check shared by
SETUP, RECORD and TEARDOWN passes exactly when the request header equals
the stored one, and each of the three handlers answers 401 when it fails;
before any header is stored, the check passes unconditionally even with
the hook configured. -/
theorem C9_single_auth_header :
    (∀ (parse : String → Option (String × String)) (authAllows : String → String → Bool)
      (checkMountRes : Option Bool) (st : PubState) (req : PubRequest) (sdp : List Char)
      (a : String) (u p : String),
      req.authorization = some a → parse a = some (u, p) → authAllows u p = true →
      (announceRequest true parse authAllows checkMountRes st req sdp).2.authenticatedHeader
        = some a)
    ∧
    (∀ (st : PubState) (req : PubRequest) (h : String),
      st.authenticatedHeader = some h →
      (pubCheckAuthenticated true st req = true ↔ req.authorization = some h))
    ∧
    (∀ (st : PubState) (req : PubRequest),
      st.authenticatedHeader = none → pubCheckAuthenticated true st req = true)
    ∧
    (∀ (st : PubState) (req : PubRequest) (cont : PubState → Resp × PubState)
      (busy : Nat → Bool) (fuel : Nat) (range : Option (List Char)),
      pubCheckAuthenticated true st req = false →
      (setupRequestGate true cont st req).1 = resp401 ∧
      recordRequest true busy fuel st req range = some (resp401, st) ∧
      teardownRequest true st req = (resp401, st)) := by
  refine ⟨?_, ?_, ?_, ?_⟩
  · intro parse authAllows checkMountRes st req sdp a u p ha hp hall
    simp [announceRequest, ha, hp, hall, announceBody_auth_header]
  · intro st req h hst
    simp [pubCheckAuthenticated, hst]
  · intro st req hst
    simp [pubCheckAuthenticated, hst]
  · intro st req cont busy fuel range hfail
    refine ⟨?_, ?_, ?_⟩
    · simp [setupRequestGate, hfail]
    · simp [recordRequest, hfail]
    · simp [teardownRequest, hfail]

/-- C9 witness: with a stored header k, the check passes for the request
presenting k; with no stored header it passes even without any
Authorization at all. -/
theorem C9_witness :
    pubCheckAuthenticated true ⟨some "k", [], [], [], 0⟩ ⟨['/', 'a'], some "k", none⟩
      = true ∧
    pubCheckAuthenticated true ⟨none, [], [], [], 0⟩ ⟨['/', 'a'], none, none⟩ = true :=
  ⟨(C9_single_auth_header.2.1 ⟨some "k", [], [], [], 0⟩ ⟨['/', 'a'], some "k", none⟩
      "k" rfl).mpr rfl,
    C9_single_auth_header.2.2.1 ⟨none, [], [], [], 0⟩ ⟨['/', 'a'], none, none⟩ rfl⟩

/-! ## src/lib/ClientServer.ts and src/unnamed/part_001 : the
subscriber-side server

The wrapper map binds session ids to ClientWrapper objects; the wrapper
stores the Authorization header of its binding request (part_001 line 40,
empty string when absent) and its mount path.  The post-auth work of each
handler that reaches into Client / ClientWrapper objects (addClient plus
client.setup for SETUP, wrapper.play for PLAY, wrapper.close for
TEARDOWN) is an injected collaborator function, universally quantified in
the theorems about the authentication gate. -/

/-- A ClientWrapper as the handlers see it. -/
structure CSWrapper where
  wid : Nat
  authorizationHeader : String
  mountPath : List Char
  keepalives : Nat
  deriving Repr, DecidableEq

/-- The ClientServer state: the shared registry, the session-id-to-wrapper
map, and the uuid source for new wrappers. -/
structure CSState where
  registry : List (List Char × PubMount)
  clients : List (Nat × CSWrapper)
  nextId : Nat
  deriving Repr, DecidableEq

/-- The parts of a subscriber request the handlers read. -/
structure CSRequest where
  uri : List Char
  authorization : Option String
  session : Option Nat
  deriving Repr, DecidableEq

/-- The anti-hijack test of checkAuthenticated (ClientServer.ts line 292):
a Session header naming a registered wrapper whose stored header differs
from the request Authorization. -/
def sessionAuthMismatch (st : CSState) (req : CSRequest) (a : String) : Bool :=
  match req.session with
  | some sid =>
    match st.clients.lookup sid with
    | some w => w.authorizationHeader ≠ a
    | none => false
  | none => false

/-- Embedding of ClientServer.checkAuthenticated (lines 283-318): pass
when no hook is configured; then require Authorization (else 401); then
the anti-hijack test (else 401); then parse Basic credentials (else 401);
then the hook decides (else 401).  Returns the pass flag and the 401
response the failing branches set. -/
def csCheckAuthenticated (authConfigured : Bool)
    (parse : String → Option (String × String)) (authAllows : String → String → Bool)
    (st : CSState) (req : CSRequest) : Bool × Option Resp :=
  if authConfigured then
    match req.authorization with
    | none => (false, some resp401)
    | some a =>
      if sessionAuthMismatch st req a then (false, some resp401)
      else
        match parse a with
        | none => (false, some resp401)
        | some (u, p) => if authAllows u p then (true, none) else (false, some resp401)
  else (true, none)

/-- Keepalive refresh on one wrapper, counted. -/
def keepaliveUpdate (clients : List (Nat × CSWrapper)) (sid : Nat) :
    List (Nat × CSWrapper) :=
  clients.map fun e =>
    if e.1 = sid then (e.1, { e.2 with keepalives := e.2.keepalives + 1 }) else e

/-- The OPTIONS reply header every optionsRequest response carries. -/
def optionsHeader : String × String := ("OPTIONS", "DESCRIBE SETUP PLAY STOP")

/-- Embedding of ClientServer.optionsRequest (lines 92-106): with a
Session header, a passing authentication refreshes the keepalive of the
named wrapper (454 when it is unknown); a failing authentication sets 401
and the handler still falls through to the OPTIONS reply, so the response
carries status 401 with both the challenge and the OPTIONS header. -/
def optionsRequest (authConfigured : Bool) (parse : String → Option (String × String))
    (authAllows : String → String → Bool) (st : CSState) (req : CSRequest) :
    Resp × CSState :=
  match req.session with
  | some sid =>
    if (csCheckAuthenticated authConfigured parse authAllows st req).1 then
      match st.clients.lookup sid with
      | some _ =>
        (⟨200, [optionsHeader]⟩, { st with clients := keepaliveUpdate st.clients sid })
      | none => (⟨454, []⟩, st)
    else
      (⟨401, [("WWW-Authenticate", "Basic realm=\"rtsp\""), optionsHeader]⟩, st)
  | none => (⟨200, [optionsHeader]⟩, st)

/-- Embedding of ClientServer.describeRequest (lines 113-147): the
authentication gate; then the checkMount hook, whose false is 403 and
whose numeric result is used as the status verbatim; then the mount
lookup (404 when absent); then the SDP reply whose Content-Length is the
byte length of the mount sdp (the body, res.write of the sdp, is the
sdp itself). -/
def describeRequest (authConfigured : Bool) (parse : String → Option (String × String))
    (authAllows : String → String → Bool) (checkMountRes : Option (Bool ⊕ Nat))
    (st : CSState) (req : CSRequest) : Resp × CSState :=
  if !(csCheckAuthenticated authConfigured parse authAllows st req).1 then (resp401, st)
  else
    match checkMountRes with
    | some (Sum.inl false) => (⟨403, []⟩, st)
    | some (Sum.inr n) => (⟨n, []⟩, st)
    | _ =>
      match getMount st.registry req.uri with
      | none => (⟨404, []⟩, st)
      | some m =>
        (⟨200, [("Content-Type", "application/sdp"),
           ("Content-Length", toString m.sdp.length)]⟩, st)

/-- Embedding of ClientServer.setupRequest (lines 154-211) up to the
wrapper resolution: the authentication gate (401); without a Session
header a new ClientWrapper is constructed, which resolves the mount map
at the parsed path and throws when absent (404), else stores the request
Authorization (empty when absent) and registers itself; with a Session
header naming a known wrapper that wrapper is used; with an unknown
Session header the source returns without responding (none).  The rest
(addClient, client setup with the port machinery, the transport reply)
is the injected continuation receiving the wrapper id. -/
def setupRequest (authConfigured : Bool) (parse : String → Option (String × String))
    (authAllows : String → String → Bool)
    (cont : CSState → Nat → Option (Resp × CSState))
    (st : CSState) (req : CSRequest) : Option (Resp × CSState) :=
  if !(csCheckAuthenticated authConfigured parse authAllows st req).1 then
    some (resp401, st)
  else
    match req.session with
    | none =>
      match st.registry.lookup (getMountInfoL req.uri).path with
      | none => some (⟨404, []⟩, st)
      | some _ =>
        cont { st with
                clients := st.clients ++
                  [(st.nextId, ⟨st.nextId, (req.authorization).getD "",
                    (getMountInfoL req.uri).path, 0⟩)]
                nextId := st.nextId + 1 } st.nextId
    | some sid =>
      match st.clients.lookup sid with
      | some _ => cont st sid
      | none => none

/-- Embedding of ClientServer.playRequest (lines 218-238): the
authentication gate (401); a missing or unknown Session header is 454;
wrapper.play (the injected effect adds the wrapper sessions to the stream
clients map and refreshes keepalive); the mount range, when set, is
echoed in the Range header. -/
def playRequest (authConfigured : Bool) (parse : String → Option (String × String))
    (authAllows : String → String → Bool) (playEffect : CSState → Nat → CSState)
    (st : CSState) (req : CSRequest) : Resp × CSState :=
  if !(csCheckAuthenticated authConfigured parse authAllows st req).1 then (resp401, st)
  else
    match req.session with
    | none => (⟨454, []⟩, st)
    | some sid =>
      match st.clients.lookup sid with
      | none => (⟨454, []⟩, st)
      | some w =>
        let st2 := playEffect st sid
        match (st.registry.lookup w.mountPath).bind PubMount.range with
        | some r => (⟨200, [("Range", String.mk r)]⟩, st2)
        | none => (⟨200, []⟩, st2)

/-- Embedding of ClientServer.teardownRequest (lines 245-262): the
authentication gate (401); a missing or unknown Session header is 454;
wrapper.close (the injected effect closes every contained session) and
the wrapper entry is deleted. -/
def csTeardownRequest (authConfigured : Bool) (parse : String → Option (String × String))
    (authAllows : String → String → Bool) (closeEffect : CSState → Nat → CSState)
    (st : CSState) (req : CSRequest) : Resp × CSState :=
  if !(csCheckAuthenticated authConfigured parse authAllows st req).1 then (resp401, st)
  else
    match req.session with
    | none => (⟨454, []⟩, st)
    | some sid =>
      match st.clients.lookup sid with
      | none => (⟨454, []⟩, st)
      | some _ =>
        let st2 := closeEffect st sid
        (⟨200, []⟩, { st2 with clients := st2.clients.filter fun e => e.1 ≠ sid })

/-- C3: with the authentication hook configured, every subscriber request
that carries a Session header identifying a registered wrapper together
with an Authorization header different from the one stored on that
wrapper is rejected with status 401 and the WWW-Authenticate Basic
challenge by every method that authenticates: OPTIONS with a session,
DESCRIBE, SETUP, PLAY and TEARDOWN — whatever the parser, the hook, the
injected continuations and the rest of the state do. -/
theorem C3_session_hijack_rejected
    (parse : String → Option (String × String)) (authAllows : String → String → Bool)
    (st : CSState) (req : CSRequest) (sid : Nat) (w : CSWrapper) (a : String)
    (hsid : req.session = some sid)
    (hw : st.clients.lookup sid = some w)
    (ha : req.authorization = some a)
    (hne : w.authorizationHeader ≠ a) :
    csCheckAuthenticated true parse authAllows st req = (false, some resp401) ∧
    ((optionsRequest true parse authAllows st req).1.statusCode = 401 ∧
      ("WWW-Authenticate", "Basic realm=\"rtsp\"") ∈
        (optionsRequest true parse authAllows st req).1.headers) ∧
    (∀ checkMountRes, describeRequest true parse authAllows checkMountRes st req =
      (resp401, st)) ∧
    (∀ cont, setupRequest true parse authAllows cont st req = some (resp401, st)) ∧
    (∀ playEffect, playRequest true parse authAllows playEffect st req = (resp401, st)) ∧
    (∀ closeEffect, csTeardownRequest true parse authAllows closeEffect st req =
      (resp401, st)) := by
  have hmis : sessionAuthMismatch st req a = true := by
    simp [sessionAuthMismatch, hsid, hw, hne]
  have hchk : csCheckAuthenticated true parse authAllows st req = (false, some resp401) := by
    simp [csCheckAuthenticated, ha, hmis]
  refine ⟨hchk, ⟨?_, ?_⟩, ?_, ?_, ?_, ?_⟩
  · simp [optionsRequest, hsid, hchk]
  · simp [optionsRequest, hsid, hchk]
  · intro checkMountRes
    simp [describeRequest, hchk]
  · intro cont
    simp [setupRequest, hchk]
  · intro playEffect
    simp [playRequest, hchk]
  · intro closeEffect
    simp [csTeardownRequest, hchk]

/-- C3 witness: wrapper 4 stores the header good; the request presents
evil with Session 4; DESCRIBE (hook unset result) answers 401. -/
theorem C3_witness :
    csCheckAuthenticated true (fun _ => none) (fun _ _ => false)
      ⟨[], [(4, ⟨4, "good", ['/', 'a'], 0⟩)], 9⟩
      ⟨['/', 'a'], some "evil", some 4⟩ = (false, some resp401) ∧
    describeRequest true (fun _ => none) (fun _ _ => false) none
      ⟨[], [(4, ⟨4, "good", ['/', 'a'], 0⟩)], 9⟩
      ⟨['/', 'a'], some "evil", some 4⟩ =
      (resp401, ⟨[], [(4, ⟨4, "good", ['/', 'a'], 0⟩)], 9⟩) := by
  have h := C3_session_hijack_rejected (fun _ => none) (fun _ _ => false)
    ⟨[], [(4, ⟨4, "good", ['/', 'a'], 0⟩)], 9⟩ ⟨['/', 'a'], some "evil", some 4⟩
    4 ⟨4, "good", ['/', 'a'], 0⟩ "evil" rfl (by decide) rfl (by decide)
  exact ⟨h.1, h.2.2.1 none⟩

end RtspServer
